import Mathlib

/-!
# Correlation engine of `pp/file/file_rpc.go`

A shallow embedding of the waiter registries of package `file` and of the Go
channel operations they rely on.

* A Go channel is a record `Chan`: its capacity, the values queued in its
  buffer, the number of receivers parked in a receive, and the values that a
  sender passed directly to a parked receiver.
* The package-level `sync.Map` registries are finite maps `String → Option _`
  from a key to a channel handle; channels live in a heap indexed by handles,
  and `make(chan T, n)` allocates the next unused handle.
* Every exported function that does not wait is an atomic state transformer.
  The mutexes only make these functions atomic and are not represented.
* A function that waits in a `select` with a timeout takes the list of
  operations that other goroutines perform while it waits.  When none of them
  passes a value to the waiter, the timer fires.
* Logging and metrics calls are left out.  `int` has 64 bits; `make` with a
  length that `int` can hold is assumed to succeed.
-/

namespace Sds

/-- One byte of a Go byte slice. -/
abbrev Byte := UInt8

/-- Index of a channel in the heap. -/
abbrev Handle := Nat

/-- Two to the power 64, the modulus of `uint64` arithmetic. -/
def u64 : Nat := 2 ^ 64

/-! ## Channels -/

/-- State of one Go channel of element type `α`. -/
structure Chan (α : Type) where
  /-- capacity given to `make`; zero for an unbuffered channel -/
  cap : Nat
  /-- values waiting in the buffer, oldest first -/
  buf : List α
  /-- number of receivers parked in a receive on this channel -/
  recvq : Nat
  /-- values passed directly to a parked receiver and not yet picked up -/
  handed : List α
deriving DecidableEq, Repr

/-- The channel made by `make(chan T, cap)`. -/
def Chan.make (α : Type) (cap : Nat) : Chan α :=
  { cap := cap, buf := [], recvq := 0, handed := [] }

/-- The send of `select { case ch <- v: ... default: ... }`.  The send
proceeds when a receiver is parked (the value is passed to it) or the buffer
has room; otherwise the result is `none` and the `default` branch runs. -/
def Chan.trySend {α : Type} (c : Chan α) (v : α) : Option (Chan α) :=
  if 0 < c.recvq then
    some { c with recvq := c.recvq - 1, handed := c.handed ++ [v] }
  else if c.buf.length < c.cap then
    some { c with buf := c.buf ++ [v] }
  else
    none

/-! ## Data carried by the channels -/

/-- Modelled from the spec: the operation-outcome tag of a result envelope
(`rpc.Result.Return`; package `pp/api/rpc` is not among the sources).  Only the
three tags used by `file_rpc.go` are named. -/
inductive ReturnTag where
  | UPLOAD_DATA
  | DOWNLOAD_OK
  | DL_OK_ASK_INFO
  | other (tag : String)
deriving DecidableEq, Repr

/-- Modelled from the spec: the result envelope `rpc.Result` with the fields
that `file_rpc.go` fills in: outcome tag, request id, optional offset range,
file name and encoded payload. -/
structure Result where
  Return : ReturnTag
  ReqId : String := ""
  OffsetStart : Option Nat := none
  OffsetEnd : Option Nat := none
  FileName : String := ""
  FileData : String := ""
deriving DecidableEq, Repr

/-- Modelled from the spec: the byte-offset range `protos.SliceOffset` of a
request (package `msg/protos` is not among the sources); both fields are
`uint64`. -/
structure SliceOffset where
  SliceOffsetStart : Nat
  SliceOffsetEnd : Nat
deriving DecidableEq, Repr

/-- The `uint64` difference `offset.SliceOffsetEnd - offset.SliceOffsetStart`,
the requested length. -/
def SliceOffset.len (off : SliceOffset) : Nat :=
  (off.SliceOffsetEnd + u64 - off.SliceOffsetStart) % u64

/-- Dynamic type of a value stored in `rpcDownloadReady`: the map receives
both `chan bool` (download completion) and `chan []byte` (signature). -/
inductive ReadyChan where
  /-- a `chan bool` stored by `SubscribeDownloadSliceDone` -/
  | done (h : Handle)
  /-- a `chan []byte` stored by `SubscribeGetSignature` -/
  | sig (h : Handle)
deriving DecidableEq, Repr

/-- Ways a call can fail to return a value. -/
inductive Halt where
  /-- run-time panic of a type assertion `x.(T)` on a value of another type -/
  | panicTypeAssertion
  /-- run-time panic of a slice expression `s[i:]` with `i > len(s)` -/
  | panicSliceBounds
  /-- run-time panic of a field access through a `nil` pointer -/
  | panicNilDereference
  /-- run-time panic of `make([]T, n)` with a length `n` that `int` cannot hold -/
  | panicMakeSliceLen
  /-- the call is still inside a `select` when the described activity ends -/
  | blocked
deriving DecidableEq, Repr

/-! ## Package state -/

/-- The package-level variables of `file_rpc.go` together with the heap of
channels they refer to. -/
structure State where
  /-- next handle that `make` hands out -/
  nextChan : Handle
  /-- heap of `chan *rpc.Result` -/
  resultChans : Handle → Chan Result
  /-- heap of `chan []byte` -/
  bytesChans : Handle → Chan (List Byte)
  /-- heap of `chan bool` -/
  boolChans : Handle → Chan Bool
  /-- heap of `chan uint64` -/
  u64Chans : Handle → Chan Nat
  rpcFileEventChan : String → Option Handle
  rpcSliceEventChan : String → Option Handle
  rpcUploadDataChan : String → Option Handle
  rpcDownloadReady : String → Option ReadyChan
  rpcDownloadFileInfo : String → Option Handle
  rpcDownSessionClosing : String → Option Bool

/-- The state at program start: empty registries, no channel allocated. -/
def State.init : State where
  nextChan := 0
  resultChans := fun _ => Chan.make Result 0
  bytesChans := fun _ => Chan.make (List Byte) 0
  boolChans := fun _ => Chan.make Bool 0
  u64Chans := fun _ => Chan.make Nat 0
  rpcFileEventChan := fun _ => none
  rpcSliceEventChan := fun _ => none
  rpcUploadDataChan := fun _ => none
  rpcDownloadReady := fun _ => none
  rpcDownloadFileInfo := fun _ => none
  rpcDownSessionClosing := fun _ => none

/-- Buffer size of the byte-chunk channels. -/
def NUMBER_OF_UPLOAD_CHAN_BUFFER : Nat := 5

/-! ## Byte-chunk registry `rpcUploadDataChan` -/

/-- Go function `SubscribeGetRemoteFileData`: loads the channel stored for `key`, and only
when there is none makes a buffered channel and stores it. -/
def SubscribeGetRemoteFileData (key : String) (s : State) : Handle × State :=
  match s.rpcUploadDataChan key with
  | some event => (event, s)
  | none =>
    (s.nextChan,
      { s with
        nextChan := s.nextChan + 1
        bytesChans := Function.update s.bytesChans s.nextChan
          (Chan.make (List Byte) NUMBER_OF_UPLOAD_CHAN_BUFFER)
        rpcUploadDataChan := Function.update s.rpcUploadDataChan key (some s.nextChan) })

/-- Go function `UnsubscribeGetRemoteFileData`: deletes the entry of `key`. -/
def UnsubscribeGetRemoteFileData (key : String) (s : State) : State :=
  { s with rpcUploadDataChan := Function.update s.rpcUploadDataChan key none }

/-- Go function `SendFileDataBack`: non-blocking send of `content` to the channel stored
for `hash`; when the send cannot proceed the entry is deleted. -/
def SendFileDataBack (hash : String) (content : List Byte) (s : State) : State :=
  match s.rpcUploadDataChan hash with
  | some ch =>
    match (s.bytesChans ch).trySend content with
    | some c => { s with bytesChans := Function.update s.bytesChans ch c }
    | none => UnsubscribeGetRemoteFileData hash s
  | none => s

/-! ## File-event registry `rpcFileEventChan` -/

/-- Go function `SubscribeRemoteFileEvent`: makes an unbuffered channel and stores it for
`key`, replacing whatever was stored. -/
def SubscribeRemoteFileEvent (key : String) (s : State) : Handle × State :=
  (s.nextChan,
    { s with
      nextChan := s.nextChan + 1
      resultChans := Function.update s.resultChans s.nextChan (Chan.make Result 0)
      rpcFileEventChan := Function.update s.rpcFileEventChan key (some s.nextChan) })

/-- Go function `UnsubscribeRemoteFileEvent`: deletes the entry of `key`. -/
def UnsubscribeRemoteFileEvent (key : String) (s : State) : State :=
  { s with rpcFileEventChan := Function.update s.rpcFileEventChan key none }

/-- Go function `SetRemoteFileResult`: non-blocking send of `result` to the channel stored
for `key`; when the send cannot proceed the entry is deleted. -/
def SetRemoteFileResult (key : String) (result : Result) (s : State) : State :=
  match s.rpcFileEventChan key with
  | some ch =>
    match (s.resultChans ch).trySend result with
    | some c => { s with resultChans := Function.update s.resultChans ch c }
    | none => { s with rpcFileEventChan := Function.update s.rpcFileEventChan key none }
  | none => s

/-! ## Slice-event registry `rpcSliceEventChan` -/

/-- Go function `SubscribeRemoteSliceEvent`: makes an unbuffered channel and stores it for
`key`, replacing whatever was stored. -/
def SubscribeRemoteSliceEvent (key : String) (s : State) : Handle × State :=
  (s.nextChan,
    { s with
      nextChan := s.nextChan + 1
      resultChans := Function.update s.resultChans s.nextChan (Chan.make Result 0)
      rpcSliceEventChan := Function.update s.rpcSliceEventChan key (some s.nextChan) })

/-- Go function `UnsubscribeRemoteSliceEvent`: deletes the entry of `key`. -/
def UnsubscribeRemoteSliceEvent (key : String) (s : State) : State :=
  { s with rpcSliceEventChan := Function.update s.rpcSliceEventChan key none }

/-- Go function `SetRemoteSliceResult`: non-blocking send of `result` to the channel
stored for `key`; when the send cannot proceed the entry is deleted. -/
def SetRemoteSliceResult (key : String) (result : Result) (s : State) : State :=
  match s.rpcSliceEventChan key with
  | some ch =>
    match (s.resultChans ch).trySend result with
    | some c => { s with resultChans := Function.update s.resultChans ch c }
    | none => { s with rpcSliceEventChan := Function.update s.rpcSliceEventChan key none }
  | none => s

/-! ## Registry `rpcDownloadReady` -/

/-- Go function `SubscribeDownloadSliceDone`: makes an unbuffered `chan bool` and stores
it in `rpcDownloadReady`. -/
def SubscribeDownloadSliceDone (key : String) (s : State) : Handle × State :=
  (s.nextChan,
    { s with
      nextChan := s.nextChan + 1
      boolChans := Function.update s.boolChans s.nextChan (Chan.make Bool 0)
      rpcDownloadReady := Function.update s.rpcDownloadReady key (some (.done s.nextChan)) })

/-- Go function `UnsubscribeDownloadSliceDone`: deletes the entry of `key` from
`rpcDownloadReady`. -/
def UnsubscribeDownloadSliceDone (key : String) (s : State) : State :=
  { s with rpcDownloadReady := Function.update s.rpcDownloadReady key none }

/-- Go function `SetDownloadSliceDone`: loads the entry of `key` from `rpcDownloadReady`,
asserts that it is a `chan bool` and sends `true` without blocking; when the
send cannot proceed the entry is deleted. -/
def SetDownloadSliceDone (key : String) (s : State) : Except Halt State :=
  match s.rpcDownloadReady key with
  | some (.done ch) =>
    match (s.boolChans ch).trySend true with
    | some c => .ok { s with boolChans := Function.update s.boolChans ch c }
    | none => .ok (UnsubscribeDownloadSliceDone key s)
  | some (.sig _) => .error .panicTypeAssertion
  | none => .ok s

/-- Go function `SubscribeGetSignature`: makes an unbuffered `chan []byte` and stores it
in `rpcDownloadReady`. -/
def SubscribeGetSignature (key : String) (s : State) : Handle × State :=
  (s.nextChan,
    { s with
      nextChan := s.nextChan + 1
      bytesChans := Function.update s.bytesChans s.nextChan (Chan.make (List Byte) 0)
      rpcDownloadReady := Function.update s.rpcDownloadReady key (some (.sig s.nextChan)) })

/-- Go function `UnsubscribeGetSignature`: deletes the entry of `key` from
`rpcDownloadReady`. -/
def UnsubscribeGetSignature (key : String) (s : State) : State :=
  { s with rpcDownloadReady := Function.update s.rpcDownloadReady key none }

/-- Go function `SetSignature`: loads the entry of `key` from `rpcDownloadReady`, asserts
that it is a `chan []byte` and sends `sig` without blocking; when the send
cannot proceed it just returns. -/
def SetSignature (key : String) (sig : List Byte) (s : State) : Except Halt State :=
  match s.rpcDownloadReady key with
  | some (.sig ch) =>
    match (s.bytesChans ch).trySend sig with
    | some c => .ok { s with bytesChans := Function.update s.bytesChans ch c }
    | none => .ok s
  | some (.done _) => .error .panicTypeAssertion
  | none => .ok s

/-! ## File-info registry `rpcDownloadFileInfo` -/

/-- Go function `SubscribeDownloadFileInfo`: makes an unbuffered `chan uint64` and stores
it for `key`. -/
def SubscribeDownloadFileInfo (key : String) (s : State) : Handle × State :=
  (s.nextChan,
    { s with
      nextChan := s.nextChan + 1
      u64Chans := Function.update s.u64Chans s.nextChan (Chan.make Nat 0)
      rpcDownloadFileInfo := Function.update s.rpcDownloadFileInfo key (some s.nextChan) })

/-- Go function `UnsubscribeDownloadFileInfo`: deletes the entry of `key`. -/
def UnsubscribeDownloadFileInfo (key : String) (s : State) : State :=
  { s with rpcDownloadFileInfo := Function.update s.rpcDownloadFileInfo key none }

/-- Go function `SetRemoteFileInfo`: non-blocking send of `size` to the channel stored for
`key`; when the send cannot proceed the entry is deleted. -/
def SetRemoteFileInfo (key : String) (size : Nat) (s : State) : State :=
  match s.rpcDownloadFileInfo key with
  | some ch =>
    match (s.u64Chans ch).trySend size with
    | some c => { s with u64Chans := Function.update s.u64Chans ch c }
    | none => { s with rpcDownloadFileInfo := Function.update s.rpcDownloadFileInfo key none }
  | none => s

/-- Go function `CloseDownloadSession`: stores `true` for `key` in
`rpcDownSessionClosing`. -/
def CloseDownloadSession (key : String) (s : State) : State :=
  { s with rpcDownSessionClosing := Function.update s.rpcDownSessionClosing key (some true) }

/-! ## Operations of other goroutines -/

/-- A call of one of the non-waiting functions above, made by another
goroutine. -/
inductive Op where
  | subscribeGetRemoteFileData (key : String)
  | unsubscribeGetRemoteFileData (key : String)
  | sendFileDataBack (hash : String) (content : List Byte)
  | subscribeRemoteFileEvent (key : String)
  | unsubscribeRemoteFileEvent (key : String)
  | setRemoteFileResult (key : String) (result : Result)
  | subscribeRemoteSliceEvent (key : String)
  | unsubscribeRemoteSliceEvent (key : String)
  | setRemoteSliceResult (key : String) (result : Result)
  | subscribeDownloadSliceDone (key : String)
  | unsubscribeDownloadSliceDone (key : String)
  | setDownloadSliceDone (key : String)
  | subscribeGetSignature (key : String)
  | unsubscribeGetSignature (key : String)
  | setSignature (key : String) (sig : List Byte)
  | subscribeDownloadFileInfo (key : String)
  | unsubscribeDownloadFileInfo (key : String)
  | setRemoteFileInfo (key : String) (size : Nat)
  | closeDownloadSession (key : String)
deriving DecidableEq, Repr

/-- Effect of one operation on the package state; a handle returned to the
other goroutine is dropped. -/
def Op.run : Op → State → Except Halt State
  | .subscribeGetRemoteFileData key, s => .ok (SubscribeGetRemoteFileData key s).2
  | .unsubscribeGetRemoteFileData key, s => .ok (UnsubscribeGetRemoteFileData key s)
  | .sendFileDataBack hash content, s => .ok (SendFileDataBack hash content s)
  | .subscribeRemoteFileEvent key, s => .ok (SubscribeRemoteFileEvent key s).2
  | .unsubscribeRemoteFileEvent key, s => .ok (UnsubscribeRemoteFileEvent key s)
  | .setRemoteFileResult key result, s => .ok (SetRemoteFileResult key result s)
  | .subscribeRemoteSliceEvent key, s => .ok (SubscribeRemoteSliceEvent key s).2
  | .unsubscribeRemoteSliceEvent key, s => .ok (UnsubscribeRemoteSliceEvent key s)
  | .setRemoteSliceResult key result, s => .ok (SetRemoteSliceResult key result s)
  | .subscribeDownloadSliceDone key, s => .ok (SubscribeDownloadSliceDone key s).2
  | .unsubscribeDownloadSliceDone key, s => .ok (UnsubscribeDownloadSliceDone key s)
  | .setDownloadSliceDone key, s => SetDownloadSliceDone key s
  | .subscribeGetSignature key, s => .ok (SubscribeGetSignature key s).2
  | .unsubscribeGetSignature key, s => .ok (UnsubscribeGetSignature key s)
  | .setSignature key sig, s => SetSignature key sig s
  | .subscribeDownloadFileInfo key, s => .ok (SubscribeDownloadFileInfo key s).2
  | .unsubscribeDownloadFileInfo key, s => .ok (UnsubscribeDownloadFileInfo key s)
  | .setRemoteFileInfo key size, s => .ok (SetRemoteFileInfo key size s)
  | .closeDownloadSession key, s => .ok (CloseDownloadSession key s)

/-- Runs the operations in order; a panic in any goroutine ends the
program. -/
def runOps : List Op → State → Except Halt State
  | [], s => .ok s
  | op :: rest, s =>
    match op.run s with
    | .ok s1 => runOps rest s1
    | .error e => .error e

/-! ## Receiving with a timeout -/

/-- The receive of `select { case <-ctx.Done(): ... case v := <-ch: ... }` on
the channel read by `get` and written by `set`, while the other goroutines
perform `during`.

When the buffer holds a value it is taken at once.  Otherwise the receiver
parks on the channel; after the operations of `during` it resumes with the
value passed to it, or, when no value was passed, the timer fires: the
receiver leaves the channel and the result is `none`. -/
def awaitOn {α : Type} (get : State → Chan α) (set : Chan α → State → State)
    (during : List Op) (s : State) : Except Halt (Option α × State) :=
  match (get s).buf with
  | v :: rest =>
    match runOps during (set { get s with buf := rest } s) with
    | .ok s1 => .ok (some v, s1)
    | .error e => .error e
  | [] =>
    match runOps during (set { get s with recvq := (get s).recvq + 1 } s) with
    | .ok s1 =>
      match (get s1).handed with
      | v :: rest => .ok (some v, set { get s1 with handed := rest } s1)
      | [] => .ok (none, set { get s1 with recvq := (get s1).recvq - 1 } s1)
    | .error e => .error e

/-- Bounded receive on the `chan *rpc.Result` with handle `h`. -/
def awaitResult (h : Handle) (during : List Op) (s : State) :
    Except Halt (Option Result × State) :=
  awaitOn (fun s => s.resultChans h)
    (fun c s => { s with resultChans := Function.update s.resultChans h c }) during s

/-- Bounded receive on the `chan []byte` with handle `h`. -/
def awaitBytes (h : Handle) (during : List Op) (s : State) :
    Except Halt (Option (List Byte) × State) :=
  awaitOn (fun s => s.bytesChans h)
    (fun c s => { s with bytesChans := Function.update s.bytesChans h c }) during s

/-- Bounded receive on the `chan bool` with handle `h`. -/
def awaitBool (h : Handle) (during : List Op) (s : State) :
    Except Halt (Option Bool × State) :=
  awaitOn (fun s => s.boolChans h)
    (fun c s => { s with boolChans := Function.update s.boolChans h c }) during s

/-- Bounded receive on the `chan uint64` with handle `h`. -/
def awaitU64 (h : Handle) (during : List Op) (s : State) :
    Except Halt (Option Nat × State) :=
  awaitOn (fun s => s.u64Chans h)
    (fun c s => { s with u64Chans := Function.update s.u64Chans h c }) during s

/-! ## Functions that wait -/

/-- Go function `GetSignatureFromRemote`: subscribes a signature channel for `key` and
waits on it; on a timeout returns `nil` (`none`), on a receive deletes the
entry of `key` from `rpcDownloadReady` and returns the signature. -/
def GetSignatureFromRemote (key : String) (during : List Op) (s : State) :
    Except Halt (Option (List Byte) × State) :=
  let sub := SubscribeGetSignature key s
  match awaitBytes sub.1 during sub.2 with
  | .ok (none, s2) => .ok (none, s2)
  | .ok (some signature, s2) => .ok (some signature, UnsubscribeDownloadSliceDone key s2)
  | .error e => .error e

/-- Go function `WaitDownloadSliceDone`: subscribes a completion channel for `key` and
waits on it; the result is the returned `error` (`none` for `nil`). -/
def WaitDownloadSliceDone (key : String) (during : List Op) (s : State) :
    Except Halt (Option String × State) :=
  let sub := SubscribeDownloadSliceDone key s
  match awaitBool sub.1 during sub.2 with
  | .ok (none, s2) => .ok (some "timeout waiting download slice", s2)
  | .ok (some done, s2) =>
    let s3 := UnsubscribeDownloadSliceDone key s2
    if done then .ok (none, s3) else .ok (some "download slice invalid state", s3)
  | .error e => .error e

/-- Go function `GetRemoteFileInfo`: publishes an ask-info envelope for `key`, subscribes
a file-info channel and waits on it; on a timeout returns `0`. -/
def GetRemoteFileInfo (key reqId : String) (during : List Op) (s : State) :
    Except Halt (Nat × State) :=
  let s0 := SetRemoteFileResult key { Return := .DL_OK_ASK_INFO, ReqId := reqId } s
  let sub := SubscribeDownloadFileInfo key s0
  match awaitU64 sub.1 during sub.2 with
  | .ok (none, s2) => .ok (0, s2)
  | .ok (some fileSize, s2) => .ok (fileSize, UnsubscribeDownloadFileInfo key s2)
  | .error e => .error e

/-- Go function `SaveRemoteFileData`: rejects `nil` data, then loads and deletes the
closing flag of `key` and fails when it was set; otherwise publishes a
download-ok envelope for `key` and waits for the completion acknowledgement.
`b64` is the base64 encoder of the standard library; `data = none` is the
`nil` slice. -/
def SaveRemoteFileData (b64 : List Byte → String) (key fileName : String)
    (data : Option (List Byte)) (offset : Nat) (during : List Op) (s : State) :
    Except Halt (Option String × State) :=
  match data with
  | none => .ok (some "invalid input data", s)
  | some bytes =>
    let closing := s.rpcDownSessionClosing key
    let s1 := { s with rpcDownSessionClosing := Function.update s.rpcDownSessionClosing key none }
    if closing = some true then
      .ok (some "closing session", s1)
    else
      let offsetend := (offset + bytes.length) % u64
      let result : Result :=
        { Return := .DOWNLOAD_OK
          OffsetStart := some offset
          OffsetEnd := some offsetend
          FileData := b64 bytes
          FileName := fileName }
      WaitDownloadSliceDone key during (SetRemoteFileResult key result s1)

/-- Go function `SaveRemoteSliceData`: rejects `nil` data, publishes a download-ok
envelope to the slice-event registry and waits for the completion
acknowledgement. -/
def SaveRemoteSliceData (b64 : List Byte → String) (key fileName : String)
    (data : Option (List Byte)) (offset : Nat) (during : List Op) (s : State) :
    Except Halt (Option String × State) :=
  match data with
  | none => .ok (some "invalid input data", s)
  | some bytes =>
    let offsetend := (offset + bytes.length) % u64
    let result : Result :=
      { Return := .DOWNLOAD_OK
        OffsetStart := some offset
        OffsetEnd := some offsetend
        FileData := b64 bytes
        FileName := fileName }
    WaitDownloadSliceDone key during (SetRemoteSliceResult key result s)

/-- Go function `SaveRemoteFileSliceData`: routes to `SaveRemoteSliceData` when the slice
key has a slice-event entry, else to `SaveRemoteFileData`. -/
def SaveRemoteFileSliceData (b64 : List Byte → String) (sliceKey fileKey fileName : String)
    (data : Option (List Byte)) (offset : Nat) (during : List Op) (s : State) :
    Except Halt (Option String × State) :=
  match s.rpcSliceEventChan sliceKey with
  | some _ => SaveRemoteSliceData b64 sliceKey fileName data offset during s
  | none => SaveRemoteFileData b64 fileKey fileName data offset during s

/-- The builtin `copy(data[cursor:], src)`: overwrites `data` from position
`cursor` with as many elements of `src` as fit. -/
def goCopy (data : List Byte) (cursor : Nat) (src : List Byte) : List Byte :=
  data.take cursor ++ src.take (data.length - cursor) ++ data.drop (cursor + src.length)

/-- The receive loop of `GetRemoteFileData`.  `size` is the requested length,
`data` the output buffer, `cursor` the start of the slice `cursor` inside
`data`, `read` the number of bytes received.  Each element of `sched` holds
the operations of the other goroutines during one pass through the `select`;
a pass without an element is still waiting. -/
def GetRemoteFileData.loop (hash : String) (size : Nat) :
    List (List Op) → List Byte → Nat → Nat → State →
      Except Halt (Option (List Byte) × State)
  | [], _, _, _, _ => .error .blocked
  | during :: sched, data, cursor, read, s =>
    let sub := SubscribeGetRemoteFileData hash s
    match awaitBytes sub.1 during sub.2 with
    | .ok (none, s2) => .ok (none, s2)
    | .ok (some subSlice, s2) =>
      let data1 := goCopy data cursor subSlice
      let read1 := (read + subSlice.length) % u64
      if data1.length < read1 then
        .error .panicSliceBounds
      else if size ≤ read1 then
        .ok (some data1, UnsubscribeGetRemoteFileData hash s2)
      else
        GetRemoteFileData.loop hash size sched data1 read1 read1 s2
    | .error e => .error e

/-- Go function `GetRemoteFileData`: rejects a `nil` offset, publishes an
upload-data-request envelope for `hash`, allocates the output buffer and runs
the receive loop.  `make` panics when the requested length, a `uint64`, is
not below `2 ^ 63`.  The result `none` is the `nil` slice. -/
def GetRemoteFileData (hash : String) (offset : Option SliceOffset)
    (sched : List (List Op)) (s : State) : Except Halt (Option (List Byte) × State) :=
  match offset with
  | none => .ok (none, s)
  | some off =>
    let r : Result :=
      { Return := .UPLOAD_DATA
        OffsetStart := some off.SliceOffsetStart
        OffsetEnd := some off.SliceOffsetEnd }
    let s1 := SetRemoteFileResult hash r s
    let size := off.len
    if 2 ^ 63 ≤ size then
      .error .panicMakeSliceLen
    else
      GetRemoteFileData.loop hash size sched (List.replicate size 0) 0 0 s1

/-! ## Predicates used in the statements -/

/-- Every handle stored in a registry has been allocated. -/
def State.wf (s : State) : Prop :=
  (∀ k h, s.rpcFileEventChan k = some h → h < s.nextChan) ∧
  (∀ k h, s.rpcSliceEventChan k = some h → h < s.nextChan) ∧
  (∀ k h, s.rpcUploadDataChan k = some h → h < s.nextChan) ∧
  (∀ k h, s.rpcDownloadReady k = some (.done h) → h < s.nextChan) ∧
  (∀ k h, s.rpcDownloadReady k = some (.sig h) → h < s.nextChan) ∧
  (∀ k h, s.rpcDownloadFileInfo k = some h → h < s.nextChan)

/-- Key of the `rpcDownloadReady` entry that an operation stores, deletes or
sends to, if any. -/
def Op.readyKey : Op → Option String
  | .subscribeDownloadSliceDone key => some key
  | .unsubscribeDownloadSliceDone key => some key
  | .setDownloadSliceDone key => some key
  | .subscribeGetSignature key => some key
  | .unsubscribeGetSignature key => some key
  | .setSignature key _ => some key
  | _ => none

/-- Key of the `rpcDownloadFileInfo` entry that an operation stores, deletes
or sends to, if any. -/
def Op.fileInfoKey : Op → Option String
  | .subscribeDownloadFileInfo key => some key
  | .unsubscribeDownloadFileInfo key => some key
  | .setRemoteFileInfo key _ => some key
  | _ => none

/-- The `chan bool` with handle `h` is allocated and `key` is the only key of
`rpcDownloadReady` that refers to it. -/
def ownsDone (s : State) (key : String) (h : Handle) : Prop :=
  h < s.nextChan ∧ s.rpcDownloadReady key = some (.done h) ∧
    ∀ k, k ≠ key → s.rpcDownloadReady k ≠ some (.done h)

/-- The `chan []byte` with handle `h` is allocated, `key` is the only key of
`rpcDownloadReady` that refers to it, and no key of `rpcUploadDataChan` does. -/
def ownsSig (s : State) (key : String) (h : Handle) : Prop :=
  h < s.nextChan ∧ s.rpcDownloadReady key = some (.sig h) ∧
    (∀ k, k ≠ key → s.rpcDownloadReady k ≠ some (.sig h)) ∧
    ∀ k, s.rpcUploadDataChan k ≠ some h

/-- The `chan uint64` with handle `h` is allocated and `key` is the only key
of `rpcDownloadFileInfo` that refers to it. -/
def ownsInfo (s : State) (key : String) (h : Handle) : Prop :=
  h < s.nextChan ∧ s.rpcDownloadFileInfo key = some h ∧
    ∀ k, k ≠ key → s.rpcDownloadFileInfo k ≠ some h

/-- The `chan *rpc.Result` with handle `h` is allocated and neither the
file-event nor the slice-event registry refers to it. -/
def orphaned (s : State) (h : Handle) : Prop :=
  h < s.nextChan ∧ (∀ k, s.rpcFileEventChan k ≠ some h) ∧
    ∀ k, s.rpcSliceEventChan k ≠ some h

/-- No stale byte-chunk state for `hash`: either no entry, or an entry whose
channel is empty with no receiver parked. -/
def uploadIdle (s : State) (hash : String) : Prop :=
  match s.rpcUploadDataChan hash with
  | none => True
  | some h => (s.bytesChans h).buf = [] ∧ (s.bytesChans h).recvq = 0 ∧ (s.bytesChans h).handed = []

/-- No receiver is parked on a channel of the byte-chunk registry and no value is on its way to
one.  Only `GetRemoteFileData` and `CacheRemoteFileData` receive on these channels, and both hold
`upSliceMutex` throughout, so this holds whenever one of them starts. -/
def State.uploadQuiet (s : State) : Prop :=
  ∀ k h, s.rpcUploadDataChan k = some h →
    (s.bytesChans h).recvq = 0 ∧ (s.bytesChans h).handed = []

/-- The channel registered for `hash` in the byte-chunk registry, if any, holds no chunk. -/
def uploadEmpty (s : State) (hash : String) : Prop :=
  ∀ h, s.rpcUploadDataChan hash = some h → (s.bytesChans h).buf = []

/-- Two calls of `SubscribeRemoteFileEvent` for the same key in a row: the
first handle, the second handle and the state afterwards. -/
def subscribeFileTwice (key : String) (s : State) : Handle × Handle × State :=
  ((SubscribeRemoteFileEvent key s).1,
    (SubscribeRemoteFileEvent key (SubscribeRemoteFileEvent key s).2).1,
    (SubscribeRemoteFileEvent key (SubscribeRemoteFileEvent key s).2).2)

/-- Two calls of `SubscribeRemoteSliceEvent` for the same key in a row: the
first handle, the second handle and the state afterwards. -/
def subscribeSliceTwice (key : String) (s : State) : Handle × Handle × State :=
  ((SubscribeRemoteSliceEvent key s).1,
    (SubscribeRemoteSliceEvent key (SubscribeRemoteSliceEvent key s).2).1,
    (SubscribeRemoteSliceEvent key (SubscribeRemoteSliceEvent key s).2).2)

/-- Operations of other goroutines on keys other than `"k"`, used to instantiate the
statements. -/
def otherKeyOps : List Op :=
  [.sendFileDataBack "x" [1], .subscribeDownloadSliceDone "other", .setDownloadSliceDone "other",
    .subscribeDownloadFileInfo "other", .setRemoteFileInfo "other" 7]

/-- The state after `SubscribeGetRemoteFileData "k"` and five chunks sent with
`SendFileDataBack` while nothing receives: the buffer of the channel is full. -/
def fullUploadState : State :=
  SendFileDataBack "k" [5] (SendFileDataBack "k" [4] (SendFileDataBack "k" [3]
    (SendFileDataBack "k" [2] (SendFileDataBack "k" [1]
      (SubscribeGetRemoteFileData "k" State.init).2))))

/-- The state after a fetch of the range from 0 to 1 for `"h"` that timed out and one chunk
sent for `"h"` afterwards: the entry of `"h"` is registered and its channel holds the late
chunk. -/
def staleUploadState : State :=
  match GetRemoteFileData "h" (some ⟨0, 1⟩) [[]] State.init with
  | .ok (_, s1) => SendFileDataBack "h" [9] s1
  | .error _ => State.init

/-- The state after `GetSignatureFromRemote "k"` timed out with no concurrent operation: the
signature entry of `"k"` is still registered in `rpcDownloadReady`. -/
def staleSignatureState : State :=
  match GetSignatureFromRemote "k" [] State.init with
  | .ok (_, s1) => s1
  | .error _ => State.init

/-! ## Spooling a fetch to a file -/

/-- The conversion `int64(x)` of an integer value: wraps into the signed 64-bit range. -/
def toInt64 (x : Int) : Int :=
  (x + 2 ^ 63) % 2 ^ 64 - 2 ^ 63

/-- The receive loop of `CacheRemoteFileData`.  `size` is
`int64(offset.SliceOffsetEnd-offset.SliceOffsetStart)`, `read` the number of bytes received,
`writes` the calls of `WriteFile` made so far (offset and data, oldest first).  `writeErr` gives
the error that `WriteFile` returns for a chunk at an offset, if any.  Each element of `sched`
holds the operations of the other goroutines during one pass through the `select`; a pass
without an element is still waiting. -/
def CacheRemoteFileData.loop (writeErr : List Byte → Int → Option String) (fileHash : String)
    (size : Int) :
    List (List Op) → Int → List (Int × List Byte) → State →
      Except Halt (Option String × List (Int × List Byte) × State)
  | [], _, _, _ => .error .blocked
  | during :: sched, read, writes, s =>
    let sub := SubscribeGetRemoteFileData fileHash s
    match awaitBytes sub.1 during sub.2 with
    | .ok (none, s2) => .ok (some "timeout waiting uploaded sub-slice", writes, s2)
    | .ok (some subSlice, s2) =>
      match writeErr subSlice read with
      | some err => .ok (some ("failed writing file: " ++ err), writes, s2)
      | none =>
        let read1 := toInt64 (read + subSlice.length)
        if size ≤ read1 then
          .ok (none, writes ++ [(read, subSlice)], UnsubscribeGetRemoteFileData fileHash s2)
        else
          CacheRemoteFileData.loop writeErr fileHash size sched read1
            (writes ++ [(read, subSlice)]) s2
    | .error e => .error e

/-- Go function `CacheRemoteFileData`: builds the upload-data-request envelope from the fields
of `offset` (a `nil` offset panics there, the function has no check), publishes it, opens the
temporary file and runs the receive loop, writing each chunk at the offset reached.  `openErr`
is the error that `OpenTmpFile` returns, if any, and `writeErr` that of `WriteFile`; both
functions live outside the sources.  The result is the returned `error` (`none` for `nil`) and
the writes made. -/
def CacheRemoteFileData (openErr : Option String) (writeErr : List Byte → Int → Option String)
    (fileHash : String) (offset : Option SliceOffset) (sched : List (List Op)) (s : State) :
    Except Halt (Option String × List (Int × List Byte) × State) :=
  match offset with
  | none => .error .panicNilDereference
  | some off =>
    let r : Result :=
      { Return := .UPLOAD_DATA
        OffsetStart := some off.SliceOffsetStart
        OffsetEnd := some off.SliceOffsetEnd }
    let s1 := SetRemoteFileResult fileHash r s
    match openErr with
    | some err => .ok (some ("failed opening temp file: " ++ err), [], s1)
    | none => CacheRemoteFileData.loop writeErr fileHash (toInt64 off.len) sched 0 [] s1

/-! ## Scenarios used in the statements -/

/-- A receiver parks in a receive on the `chan *rpc.Result` with handle `h`: the first step of
a bounded wait on it. -/
def parkOnResult (h : Handle) (s : State) : State :=
  { s with resultChans := (Function.update s.resultChans h
      { (s.resultChans h) with recvq := (s.resultChans h).recvq + 1 }) }

/-- Calls `SendFileDataBack key` once for each chunk, in order, with nothing received in
between. -/
def sendAll (key : String) : List (List Byte) → State → State
  | [], s => s
  | c :: rest, s => sendAll key rest (SendFileDataBack key c s)

/-- The values of `n` bounded receives in a row on the `chan []byte` with handle `h`, while no
other goroutine does anything (`none` for a receive that timed out). -/
def receiveAll (h : Handle) : Nat → State → Except Halt (List (Option (List Byte)) × State)
  | 0, s => .ok ([], s)
  | n + 1, s =>
    match awaitBytes h [] s with
    | .ok (v, s1) =>
      match receiveAll h n s1 with
      | .ok (vs, s2) => .ok (v :: vs, s2)
      | .error e => .error e
    | .error e => .error e

/-! ## Last-result caches -/

/-- The four `sync.Map` caches of terminal results: `rpcFileListResult`,
`rpcFileShareResult`, `rpcClearExpiredShareLinksResult` and `rpcOzone`.  `FL`, `FS`, `CE` and
`OZ` stand for the result structures of package `pp/api/rpc`, which is not among the sources.
A stored value is a non-nil pointer: only the `Set` functions store, and they skip `nil`. -/
structure Caches (FL FS CE OZ : Type) where
  rpcFileListResult : String → Option FL
  rpcFileShareResult : String → Option FS
  rpcClearExpiredShareLinksResult : String → Option CE
  rpcOzone : String → Option OZ

/-- Go function `GetFileListResult`: loads and deletes the entry of `key`; returns the
pointer and `loaded` (`none` is `nil`). -/
def GetFileListResult {FL FS CE OZ : Type} (key : String) (c : Caches FL FS CE OZ) :
    (Option FL × Bool) × Caches FL FS CE OZ :=
  let result := c.rpcFileListResult key
  let c1 := { c with rpcFileListResult := Function.update c.rpcFileListResult key none }
  match result with
  | some r => ((some r, true), c1)
  | none => ((none, false), c1)

/-- Go function `SetFileListResult`: stores `result` for `key` unless it is `nil`. -/
def SetFileListResult {FL FS CE OZ : Type} (key : String) (result : Option FL)
    (c : Caches FL FS CE OZ) : Caches FL FS CE OZ :=
  match result with
  | some r => { c with rpcFileListResult := Function.update c.rpcFileListResult key (some r) }
  | none => c

/-- Go function `GetFileShareResult`: loads and deletes the entry of `key`; returns the
pointer and `loaded`. -/
def GetFileShareResult {FL FS CE OZ : Type} (key : String) (c : Caches FL FS CE OZ) :
    (Option FS × Bool) × Caches FL FS CE OZ :=
  let result := c.rpcFileShareResult key
  let c1 := { c with rpcFileShareResult := Function.update c.rpcFileShareResult key none }
  match result with
  | some r => ((some r, true), c1)
  | none => ((none, false), c1)

/-- Go function `SetFileShareResult`: stores `result` for `key` unless it is `nil`. -/
def SetFileShareResult {FL FS CE OZ : Type} (key : String) (result : Option FS)
    (c : Caches FL FS CE OZ) : Caches FL FS CE OZ :=
  match result with
  | some r => { c with rpcFileShareResult := Function.update c.rpcFileShareResult key (some r) }
  | none => c

/-- Go function `GetClearExpiredShareLinksResult`: loads and deletes the entry of `key`;
returns the pointer and `loaded`. -/
def GetClearExpiredShareLinksResult {FL FS CE OZ : Type} (key : String)
    (c : Caches FL FS CE OZ) : (Option CE × Bool) × Caches FL FS CE OZ :=
  let result := c.rpcClearExpiredShareLinksResult key
  let c1 := { c with
    rpcClearExpiredShareLinksResult := Function.update c.rpcClearExpiredShareLinksResult key none }
  match result with
  | some r => ((some r, true), c1)
  | none => ((none, false), c1)

/-- Go function `SetClearExpiredShareLinksResult`: stores `result` for `key` unless it is
`nil`. -/
def SetClearExpiredShareLinksResult {FL FS CE OZ : Type} (key : String) (result : Option CE)
    (c : Caches FL FS CE OZ) : Caches FL FS CE OZ :=
  match result with
  | some r =>
    { c with
      rpcClearExpiredShareLinksResult :=
        (Function.update c.rpcClearExpiredShareLinksResult key (some r)) }
  | none => c

/-- Go function `GetQueryOzoneResult`: loads and deletes the entry of `key` of `rpcOzone`;
returns the pointer and `loaded`. -/
def GetQueryOzoneResult {FL FS CE OZ : Type} (key : String) (c : Caches FL FS CE OZ) :
    (Option OZ × Bool) × Caches FL FS CE OZ :=
  let result := c.rpcOzone key
  let c1 := { c with rpcOzone := Function.update c.rpcOzone key none }
  match result with
  | some r => ((some r, true), c1)
  | none => ((none, false), c1)

/-- Go function `SetQueryOzoneResult`: stores `result` for `key` in `rpcOzone` unless it is
`nil`. -/
def SetQueryOzoneResult {FL FS CE OZ : Type} (key : String) (result : Option OZ)
    (c : Caches FL FS CE OZ) : Caches FL FS CE OZ :=
  match result with
  | some r => { c with rpcOzone := Function.update c.rpcOzone key (some r) }
  | none => c

/-! ## Latency probes of `pp/peers/sp_peers.go` -/

/-- Modelled from the spec: a client connection (`cf.ClientConn`, package `framework/client/cf`
is not among the sources): an identity and the name that `client.GetConnectionName` reports
for it, the network address of the peer. -/
structure ClientConn where
  id : Nat
  name : String
deriving DecidableEq, Repr

/-- Modelled from the spec: the connection status of a peer record (disconnected, connecting,
connected, and the states unknown and failed of the state machine of the connection manager). -/
inductive PeerStatus where
  | unknown
  | connecting
  | connected
  | disconnected
  | failed
deriving DecidableEq, Repr

/-- The latency-check request `protos.ReqLatencyCheck` of heartbeat type `LATENCY_CHECK` that
`checkSingleSpLatency` builds. -/
structure ReqLatencyCheck where
  P2PAddressPp : String
  NetworkAddressSp : String
  PingTime : Int
deriving DecidableEq, Repr

/-- What `checkSingleSpLatency` reads and writes: the active supervisor connection
`client.SPConn` (`none` for `nil`), the package variable `bufferedSpConns`, and the calls of
`SendMessage` made (connection and request, oldest first).  The field `status` is modelled from
the spec: it is the connection status of the peer record of each address; no statement of
`sp_peers.go` writes a peer status. -/
structure PeersState where
  SPConn : Option ClientConn
  bufferedSpConns : List ClientConn
  sent : List (ClientConn × ReqLatencyCheck)
  status : String → PeerStatus

/-- Go function `checkSingleSpLatency`.  The parameter `newClient` stands for
`client.NewClient`, which lives outside the sources: it opens a connection to an address and
yields it, or yields no connection (`nil` and an error) when the attempt fails.  `p2pAddress`
is `setting.P2PAddress` and `now` the clock reading `time.Now().UnixNano()`. -/
def checkSingleSpLatency (newClient : String → Bool → Option ClientConn) (p2pAddress : String)
    (now : Int) (server : String) (heartbeat : Bool) (st : PeersState) : PeersState :=
  match st.SPConn with
  | none => st
  | some active =>
    let spConn : Option ClientConn :=
      if active.name ≠ server then newClient server heartbeat else some active
    match spConn with
    | none => st
    | some conn =>
      let pb : ReqLatencyCheck :=
        { P2PAddressPp := p2pAddress, NetworkAddressSp := server, PingTime := now }
      let st1 := { st with sent := st.sent ++ [(conn, pb)] }
      if active.name ≠ server then
        { st1 with bufferedSpConns := st1.bufferedSpConns ++ [conn] }
      else
        st1

/-- Go function `GetBufferedSpConns`. -/
def GetBufferedSpConns (st : PeersState) : List ClientConn :=
  st.bufferedSpConns

/-- Go function `ClearBufferedSpConns`. -/
def ClearBufferedSpConns (st : PeersState) : PeersState :=
  { st with bufferedSpConns := [] }

/-- A node connected to the supervisor `"sp1"`, nothing buffered or sent, every peer status
unknown. -/
def connectedToSp1 : PeersState :=
  { SPConn := some { id := 0, name := "sp1" }
    bufferedSpConns := []
    sent := []
    status := fun _ => .unknown }

/-! ## Mutexes held while waiting -/

/-- The package mutexes of package `file`. -/
inductive Mutex where
  | reFileMutex
  | upSliceMutex
  | fileEventMutex
  | sliceEventMutex
  | wmutex
deriving DecidableEq, Repr

/-- A statement of a call that matters for the locks. -/
inductive LockStep where
  /-- the call `m.Lock()` -/
  | lock (m : Mutex)
  /-- the call `m.Unlock()`, also when it was deferred and runs on return -/
  | unlock (m : Mutex)
  /-- a `select` that blocks in a bounded-timeout receive -/
  | wait
deriving DecidableEq, Repr

/-- The lock statements of `SetRemoteFileResult`: it locks `fileEventMutex` and unlocks it by
`defer` on return. -/
def SetRemoteFileResult.steps : List LockStep :=
  [.lock .fileEventMutex, .unlock .fileEventMutex]

/-- The lock statements of `WaitDownloadSliceDone`: it takes no mutex and waits once. -/
def WaitDownloadSliceDone.steps : List LockStep :=
  [.wait]

/-- The lock statements of `GetRemoteFileData` on a non-nil offset, in program order, for a
call that passes `passes` times through the `select` of its loop: `upSliceMutex` is locked on
entry and unlocked by `defer` on return; `SubscribeGetRemoteFileData` and
`UnsubscribeGetRemoteFileData` take no mutex. -/
def GetRemoteFileData.steps (passes : Nat) : List LockStep :=
  [.lock .upSliceMutex] ++ SetRemoteFileResult.steps ++ List.replicate passes .wait
    ++ [.unlock .upSliceMutex]

/-- The lock statements of `CacheRemoteFileData`, in program order, for a call that passes
`passes` times through the `select` of its loop: `upSliceMutex` is locked on entry and unlocked
by `defer` on return. -/
def CacheRemoteFileData.steps (passes : Nat) : List LockStep :=
  [.lock .upSliceMutex] ++ SetRemoteFileResult.steps ++ List.replicate passes .wait
    ++ [.unlock .upSliceMutex]

/-- The lock statements of `SaveRemoteFileData` on a call that reaches the send (non-nil data,
no closing flag): `wmutex` is locked before the envelope is built and unlocked by `defer` on
return, after `WaitDownloadSliceDone`. -/
def SaveRemoteFileData.steps : List LockStep :=
  [.lock .wmutex] ++ SetRemoteFileResult.steps ++ WaitDownloadSliceDone.steps
    ++ [.unlock .wmutex]

/-- The lock statements of `GetRemoteFileInfo`: `SetRemoteFileResult`, then the wait. -/
def GetRemoteFileInfo.steps : List LockStep :=
  SetRemoteFileResult.steps ++ [.wait]

/-- The mutexes the caller holds at each wait of a sequence of lock statements, given the
mutexes `held` at its start. -/
def heldAtWaits : List Mutex → List LockStep → List (List Mutex)
  | _, [] => []
  | held, .lock m :: rest => heldAtWaits (m :: held) rest
  | held, .unlock m :: rest => heldAtWaits (held.erase m) rest
  | held, .wait :: rest => held :: heldAtWaits held rest

/-! ## Path helpers of `pp/file/path.go` -/

/-- A Go string: its bytes. -/
abbrev GoString := List Byte

/-- The Go string with the UTF-8 bytes of a literal. -/
def goStr (s : String) : GoString :=
  s.toUTF8.data.toList

/-- The slice expression `s[lo:]` on a string, with `lo` an `int`: panics unless
`0 <= lo <= len(s)`. -/
def sliceFrom (s : GoString) (lo : Int) : Except Halt GoString :=
  if 0 ≤ lo ∧ lo ≤ s.length then .ok (s.drop lo.toNat) else .error .panicSliceBounds

/-- The slice expression `s[:hi]` on a string, with `hi` an `int`: panics unless
`0 <= hi <= len(s)`. -/
def sliceTo (s : GoString) (hi : Int) : Except Halt GoString :=
  if 0 ≤ hi ∧ hi ≤ s.length then .ok (s.take hi.toNat) else .error .panicSliceBounds

/-- The loop of `GetDownloadFileName` over the entry names of the directory, in the order
`os.ReadDir` lists them.  The result is the returned string and `error` (`none` for `nil`).
The argument of the `fmt.Println` call is evaluated first and holds the same slice expression
as the test. -/
def GetDownloadFileName.loop : List GoString → Except Halt (GoString × Option String)
  | [] => .ok ([], some "can't find cached files")
  | fileName :: files =>
    match sliceFrom fileName ((fileName.length : Int) - 4) with
    | .error e => .error e
    | .ok _ =>
      match sliceFrom fileName ((fileName.length : Int) - 4) with
      | .error e => .error e
      | .ok last =>
        if last = goStr ".csv" then
          match sliceTo fileName ((fileName.length : Int) - 4) with
          | .error e => .error e
          | .ok stem => .ok (stem, none)
        else
          GetDownloadFileName.loop files

/-- Go function `GetDownloadFileName`.  `listing` is what `os.ReadDir` returns for the
download folder of the file hash: the entry names, or an error. -/
def GetDownloadFileName (listing : Except String (List GoString)) :
    Except Halt (GoString × Option String) :=
  match listing with
  | .error err => .ok ([], some ("can't get download file name, : " ++ err))
  | .ok files => GetDownloadFileName.loop files

/-- The byte of a space. -/
def bSpace : Byte := 32

/-- The byte of a double quote. -/
def bQuote : Byte := 34

/-- The byte of a backslash. -/
def bBackslash : Byte := 92

/-- The first loop of `EscapePath`, taken on linux and darwin: appends each parameter without
a backslash at its end, and a space after every parameter but the last; an empty parameter
adds a space. -/
def EscapePath.unix : List GoString → GoString
  | [] => []
  | str :: rest =>
    (if str ≠ [] then
      (if str.getLast? = some bBackslash then str.dropLast else str)
        ++ (if rest ≠ [] then [bSpace] else [])
    else [bSpace]) ++ EscapePath.unix rest

/-- The first loop of `EscapePath` on other systems: appends each parameter and a space. -/
def EscapePath.windows : List GoString → GoString
  | [] => []
  | str :: rest => str ++ [bSpace] ++ EscapePath.windows rest

/-- The loop of `EscapePath` that removes spaces from the start of the string, one byte at a
time; the loop that removes them from the end is this one on the reversed string. -/
def dropLeadingSpaces : GoString → GoString
  | [] => []
  | c :: rest => if c = bSpace then dropLeadingSpaces rest else c :: rest

/-- Go function `EscapePath`.  `operatingSystem` is `runtime.GOOS`; `strings.Replace` removes
every backslash. -/
def EscapePath (operatingSystem : String) (param : List GoString) : Except Halt GoString :=
  let joined : GoString :=
    if operatingSystem = "linux" ∨ operatingSystem = "darwin" then
      (EscapePath.unix param).filter (fun c => c ≠ bBackslash)
    else
      EscapePath.windows param
  let trimmedEnd := (dropLeadingSpaces joined.reverse).reverse
  if trimmedEnd.length = 0 then .ok []
  else
    let trimmed := dropLeadingSpaces trimmedEnd
    if trimmed.length = 0 then .ok []
    else
      match sliceTo trimmed 1 with
      | .error e => .error e
      | .ok first =>
        match (if first = [bQuote] then sliceFrom trimmed 1 else .ok trimmed) with
        | .error e => .error e
        | .ok unquoted =>
          match sliceFrom unquoted ((unquoted.length : Int) - 1) with
          | .error e => .error e
          | .ok last =>
            if last = [bQuote] then sliceTo unquoted ((unquoted.length : Int) - 1)
            else .ok unquoted

/-! ## Slice paths of `pp/file/path.go` -/

/-- What `os.Stat` reports for a path. -/
inductive StatOutcome where
  /-- no error -/
  | found
  /-- an error for which `os.IsNotExist` holds -/
  | notExist
  /-- any other error, with its text -/
  | failed (err : String)
deriving DecidableEq, Repr

/-- Go function `PathExists`.  `stat` is `os.Stat`; the result is the returned `bool` and
`error` (`none` for `nil`). -/
def PathExists (stat : String → StatOutcome) (path : String) : Bool × Option String :=
  match stat path with
  | .found => (true, none)
  | .notExist => (false, none)
  | .failed err => (false, some err)

/-- The slice that the conversion `[]rune(s)` yields: its elements and its capacity.  The
backing array holds zero runes from the length up to the capacity. -/
structure RuneSlice where
  elems : List Char
  cap : Nat
deriving DecidableEq, Repr

/-- The conversion `[]rune(hash)` of a string of valid UTF-8: one rune for each character.
The language leaves the capacity of the result open: `spare n` is the number of elements that
the runtime leaves behind the length of a result of `n` runes. -/
def toRunes (spare : Nat → Nat) (hash : String) : RuneSlice :=
  { elems := hash.data, cap := hash.data.length + spare hash.data.length }

/-- The slice expression `a[lo:hi]` on a slice: panics unless `lo <= hi <= cap(a)`; elements
beyond the length come from the backing array. -/
def RuneSlice.slice (a : RuneSlice) (lo hi : Nat) : Except Halt (List Char) :=
  if lo ≤ hi ∧ hi ≤ a.cap then
    .ok (((a.elems ++ List.replicate (a.cap - a.elems.length) (Char.ofNat 0)).take hi).drop lo)
  else
    .error .panicSliceBounds

/-- Go function `getSlicePath`, for a hash of valid UTF-8.  `len(hash)` counts bytes,
`[]rune(hash)` holds characters.  `storagePath` is `setting.Config.Home.StoragePath`, `join` is
`filepath.Join`, `stat` is `os.Stat` and `mkdirAll` gives the error of `os.MkdirAll`, if any.
The result is the returned string and `error` (`none` for `nil`). -/
def getSlicePath (spare : Nat → Nat) (storagePath : String) (join : List String → String)
    (stat : String → StatOutcome) (mkdirAll : String → Option String) (hash : String) :
    Except Halt (String × Option String) :=
  if hash.utf8ByteSize < 10 then
    .ok ("", some "wrong size of slice hash")
  else
    match (toRunes spare hash).slice 0 8 with
    | .error e => .error e
    | .ok r1 =>
      match (toRunes spare hash).slice 8 10 with
      | .error e => .error e
      | .ok r2 =>
        let s1 := String.mk r1
        let s2 := String.mk r2
        let path := join [storagePath, s1, s2]
        match PathExists stat path with
        | (_, some err) => .ok ("", some ("failed checking path: " ++ err))
        | (exist, none) =>
          if !exist then
            match mkdirAll path with
            | some err => .ok ("", some ("failed creating dir: " ++ err))
            | none => .ok (join [path, hash], none)
          else
            .ok (join [path, hash], none)

/-! ## Invariants of the operations -/

theorem trySend_none_of_full {α : Type} (c : Chan α) (v : α)
    (hr : c.recvq = 0) (hb : c.cap ≤ c.buf.length) : c.trySend v = none := by
  simp [Chan.trySend, hr, Nat.not_lt.mpr hb]

theorem Op.run_ownsDone (op : Op) (s s1 : State) (key : String) (h : Handle)
    (hrun : op.run s = .ok s1) (hk : op.readyKey ≠ some key) (hown : ownsDone s key h) :
    ownsDone s1 key h ∧ s1.boolChans h = s.boolChans h := by
  obtain ⟨hlt, hkey, hoth⟩ := hown
  have hne : h ≠ s.nextChan := Nat.ne_of_lt hlt
  have hne2 : s.nextChan ≠ h := Ne.symm hne
  cases op <;>
    simp only [Op.run, SubscribeGetRemoteFileData, UnsubscribeGetRemoteFileData, SendFileDataBack,
      SubscribeRemoteFileEvent, UnsubscribeRemoteFileEvent, SetRemoteFileResult,
      SubscribeRemoteSliceEvent, UnsubscribeRemoteSliceEvent, SetRemoteSliceResult,
      SubscribeDownloadSliceDone, UnsubscribeDownloadSliceDone, SetDownloadSliceDone,
      SubscribeGetSignature, UnsubscribeGetSignature, SetSignature,
      SubscribeDownloadFileInfo, UnsubscribeDownloadFileInfo, SetRemoteFileInfo,
      CloseDownloadSession] at hrun
  all_goals (repeat' split at hrun)
  all_goals cases hrun
  all_goals simp only [Op.readyKey, ne_eq, Option.some.injEq, not_false_eq_true] at hk
  all_goals simp only [ownsDone, Function.update_apply, hne, if_false, and_true]
  all_goals
    first
    | exact ⟨hlt, hkey, hoth⟩
    | exact ⟨Nat.lt_succ_of_lt hlt, hkey, hoth⟩
    | (refine ⟨⟨hlt, hkey, hoth⟩, ?_⟩
       split_ifs with hc
       · subst hc
         exact absurd (by assumption) (hoth _ hk)
       · rfl)
    | (refine ⟨by first | exact hlt | exact Nat.lt_succ_of_lt hlt, ?_, fun k hkk => ?_⟩
       · rw [if_neg (fun e => hk e.symm)]; exact hkey
       · split_ifs
         · simp [hne2]
         · exact hoth k hkk)

theorem Op.run_ownsSig (op : Op) (s s1 : State) (key : String) (h : Handle)
    (hrun : op.run s = .ok s1) (hk : op.readyKey ≠ some key) (hown : ownsSig s key h) :
    ownsSig s1 key h ∧ s1.bytesChans h = s.bytesChans h := by
  obtain ⟨hlt, hkey, hoth, hup⟩ := hown
  have hne : h ≠ s.nextChan := Nat.ne_of_lt hlt
  have hne2 : s.nextChan ≠ h := Ne.symm hne
  cases op <;>
    simp only [Op.run, SubscribeGetRemoteFileData, UnsubscribeGetRemoteFileData, SendFileDataBack,
      SubscribeRemoteFileEvent, UnsubscribeRemoteFileEvent, SetRemoteFileResult,
      SubscribeRemoteSliceEvent, UnsubscribeRemoteSliceEvent, SetRemoteSliceResult,
      SubscribeDownloadSliceDone, UnsubscribeDownloadSliceDone, SetDownloadSliceDone,
      SubscribeGetSignature, UnsubscribeGetSignature, SetSignature,
      SubscribeDownloadFileInfo, UnsubscribeDownloadFileInfo, SetRemoteFileInfo,
      CloseDownloadSession] at hrun
  all_goals (repeat' split at hrun)
  all_goals cases hrun
  all_goals simp only [Op.readyKey, ne_eq, Option.some.injEq, not_false_eq_true] at hk
  all_goals simp only [ownsSig, Function.update_apply, hne, if_false, and_true]
  all_goals
    first
    | exact ⟨hlt, hkey, hoth, hup⟩
    | exact ⟨Nat.lt_succ_of_lt hlt, hkey, hoth, hup⟩
    | (refine ⟨⟨hlt, hkey, hoth, hup⟩, ?_⟩
       split_ifs with hc
       · subst hc
         first
         | exact absurd (by assumption) (hup _)
         | exact absurd (by assumption) (hoth _ hk)
       · rfl)
    | (refine ⟨by first | exact hlt | exact Nat.lt_succ_of_lt hlt, ?_, ?_, ?_⟩
       all_goals
         first
         | exact hkey
         | exact hoth
         | exact hup
         | (rw [if_neg (fun e => hk e.symm)]; exact hkey)
         | (intro k hkk
            split_ifs
            · simp [hne2]
            · exact hoth k hkk)
         | (intro k
            split_ifs
            · simp [hne2]
            · exact hup k))

theorem Op.run_ownsInfo (op : Op) (s s1 : State) (key : String) (h : Handle)
    (hrun : op.run s = .ok s1) (hk : op.fileInfoKey ≠ some key) (hown : ownsInfo s key h) :
    ownsInfo s1 key h ∧ s1.u64Chans h = s.u64Chans h := by
  obtain ⟨hlt, hkey, hoth⟩ := hown
  have hne : h ≠ s.nextChan := Nat.ne_of_lt hlt
  have hne2 : s.nextChan ≠ h := Ne.symm hne
  cases op <;>
    simp only [Op.run, SubscribeGetRemoteFileData, UnsubscribeGetRemoteFileData, SendFileDataBack,
      SubscribeRemoteFileEvent, UnsubscribeRemoteFileEvent, SetRemoteFileResult,
      SubscribeRemoteSliceEvent, UnsubscribeRemoteSliceEvent, SetRemoteSliceResult,
      SubscribeDownloadSliceDone, UnsubscribeDownloadSliceDone, SetDownloadSliceDone,
      SubscribeGetSignature, UnsubscribeGetSignature, SetSignature,
      SubscribeDownloadFileInfo, UnsubscribeDownloadFileInfo, SetRemoteFileInfo,
      CloseDownloadSession] at hrun
  all_goals (repeat' split at hrun)
  all_goals cases hrun
  all_goals simp only [Op.fileInfoKey, ne_eq, Option.some.injEq, not_false_eq_true] at hk
  all_goals simp only [ownsInfo, Function.update_apply, hne, if_false, and_true]
  all_goals
    first
    | exact ⟨hlt, hkey, hoth⟩
    | exact ⟨Nat.lt_succ_of_lt hlt, hkey, hoth⟩
    | (refine ⟨⟨hlt, hkey, hoth⟩, ?_⟩
       split_ifs with hc
       · subst hc
         exact absurd (by assumption) (hoth _ hk)
       · rfl)
    | (refine ⟨by first | exact hlt | exact Nat.lt_succ_of_lt hlt, ?_, fun k hkk => ?_⟩
       · rw [if_neg (fun e => hk e.symm)]; exact hkey
       · split_ifs
         · simp [hne2]
         · exact hoth k hkk)

theorem Op.run_orphaned (op : Op) (s s1 : State) (h : Handle)
    (hrun : op.run s = .ok s1) (horph : orphaned s h) :
    orphaned s1 h ∧ s1.resultChans h = s.resultChans h := by
  obtain ⟨hlt, hfile, hslice⟩ := horph
  have hne : h ≠ s.nextChan := Nat.ne_of_lt hlt
  have hne2 : s.nextChan ≠ h := Ne.symm hne
  cases op <;>
    simp only [Op.run, SubscribeGetRemoteFileData, UnsubscribeGetRemoteFileData, SendFileDataBack,
      SubscribeRemoteFileEvent, UnsubscribeRemoteFileEvent, SetRemoteFileResult,
      SubscribeRemoteSliceEvent, UnsubscribeRemoteSliceEvent, SetRemoteSliceResult,
      SubscribeDownloadSliceDone, UnsubscribeDownloadSliceDone, SetDownloadSliceDone,
      SubscribeGetSignature, UnsubscribeGetSignature, SetSignature,
      SubscribeDownloadFileInfo, UnsubscribeDownloadFileInfo, SetRemoteFileInfo,
      CloseDownloadSession] at hrun
  all_goals (repeat' split at hrun)
  all_goals cases hrun
  all_goals simp only [orphaned, Function.update_apply, hne, if_false, and_true]
  all_goals
    first
    | exact ⟨hlt, hfile, hslice⟩
    | exact ⟨Nat.lt_succ_of_lt hlt, hfile, hslice⟩
    | (refine ⟨⟨hlt, hfile, hslice⟩, ?_⟩
       split_ifs with hc
       · subst hc
         first
         | exact absurd (by assumption) (hfile _)
         | exact absurd (by assumption) (hslice _)
       · rfl)
    | (refine ⟨by first | exact hlt | exact Nat.lt_succ_of_lt hlt, ?_, ?_⟩
       all_goals
         first
         | exact hfile
         | exact hslice
         | (intro k
            split_ifs
            · simp [hne2]
            · first | exact hfile k | exact hslice k))

theorem Op.run_error (op : Op) (s : State) (e : Halt) (hrun : op.run s = .error e) :
    e = .panicTypeAssertion := by
  cases op <;> simp only [Op.run, SetDownloadSliceDone, SetSignature] at hrun
  all_goals (repeat' split at hrun)
  all_goals cases hrun
  all_goals rfl

theorem runOps_error (ops : List Op) (s : State) (e : Halt) (hrun : runOps ops s = .error e) :
    e = .panicTypeAssertion := by
  induction ops generalizing s with
  | nil => simp [runOps] at hrun
  | cons op rest ih =>
    simp only [runOps] at hrun
    split at hrun
    · exact ih _ hrun
    · next e1 he =>
      cases hrun
      exact Op.run_error op s _ he

theorem runOps_ownsDone (ops : List Op) (s s1 : State) (key : String) (h : Handle)
    (hrun : runOps ops s = .ok s1) (hk : ∀ op ∈ ops, op.readyKey ≠ some key)
    (hown : ownsDone s key h) : ownsDone s1 key h ∧ s1.boolChans h = s.boolChans h := by
  induction ops generalizing s with
  | nil =>
    simp only [runOps, Except.ok.injEq] at hrun
    subst hrun
    exact ⟨hown, rfl⟩
  | cons op rest ih =>
    simp only [runOps] at hrun
    split at hrun
    · next s2 hs2 =>
      have h1 := Op.run_ownsDone op s s2 key h hs2 (hk op (List.mem_cons_self _ _)) hown
      have h2 := ih s2 hrun (fun o ho => hk o (List.mem_cons_of_mem _ ho)) h1.1
      exact ⟨h2.1, h2.2.trans h1.2⟩
    · cases hrun

theorem runOps_ownsSig (ops : List Op) (s s1 : State) (key : String) (h : Handle)
    (hrun : runOps ops s = .ok s1) (hk : ∀ op ∈ ops, op.readyKey ≠ some key)
    (hown : ownsSig s key h) : ownsSig s1 key h ∧ s1.bytesChans h = s.bytesChans h := by
  induction ops generalizing s with
  | nil =>
    simp only [runOps, Except.ok.injEq] at hrun
    subst hrun
    exact ⟨hown, rfl⟩
  | cons op rest ih =>
    simp only [runOps] at hrun
    split at hrun
    · next s2 hs2 =>
      have h1 := Op.run_ownsSig op s s2 key h hs2 (hk op (List.mem_cons_self _ _)) hown
      have h2 := ih s2 hrun (fun o ho => hk o (List.mem_cons_of_mem _ ho)) h1.1
      exact ⟨h2.1, h2.2.trans h1.2⟩
    · cases hrun

theorem runOps_ownsInfo (ops : List Op) (s s1 : State) (key : String) (h : Handle)
    (hrun : runOps ops s = .ok s1) (hk : ∀ op ∈ ops, op.fileInfoKey ≠ some key)
    (hown : ownsInfo s key h) : ownsInfo s1 key h ∧ s1.u64Chans h = s.u64Chans h := by
  induction ops generalizing s with
  | nil =>
    simp only [runOps, Except.ok.injEq] at hrun
    subst hrun
    exact ⟨hown, rfl⟩
  | cons op rest ih =>
    simp only [runOps] at hrun
    split at hrun
    · next s2 hs2 =>
      have h1 := Op.run_ownsInfo op s s2 key h hs2 (hk op (List.mem_cons_self _ _)) hown
      have h2 := ih s2 hrun (fun o ho => hk o (List.mem_cons_of_mem _ ho)) h1.1
      exact ⟨h2.1, h2.2.trans h1.2⟩
    · cases hrun

theorem runOps_orphaned (ops : List Op) (s s1 : State) (h : Handle)
    (hrun : runOps ops s = .ok s1) (horph : orphaned s h) :
    orphaned s1 h ∧ s1.resultChans h = s.resultChans h := by
  induction ops generalizing s with
  | nil =>
    simp only [runOps, Except.ok.injEq] at hrun
    subst hrun
    exact ⟨horph, rfl⟩
  | cons op rest ih =>
    simp only [runOps] at hrun
    split at hrun
    · next s2 hs2 =>
      have h1 := Op.run_orphaned op s s2 h hs2 horph
      have h2 := ih s2 hrun h1.1
      exact ⟨h2.1, h2.2.trans h1.2⟩
    · cases hrun

theorem State.init_wf : State.init.wf := by
  simp [State.wf, State.init]

theorem Op.run_wf (op : Op) (s s1 : State) (hrun : op.run s = .ok s1) (hwf : s.wf) : s1.wf := by
  obtain ⟨h1, h2, h3, h4, h5, h6⟩ := hwf
  cases op <;>
    simp only [Op.run, SubscribeGetRemoteFileData, UnsubscribeGetRemoteFileData, SendFileDataBack,
      SubscribeRemoteFileEvent, UnsubscribeRemoteFileEvent, SetRemoteFileResult,
      SubscribeRemoteSliceEvent, UnsubscribeRemoteSliceEvent, SetRemoteSliceResult,
      SubscribeDownloadSliceDone, UnsubscribeDownloadSliceDone, SetDownloadSliceDone,
      SubscribeGetSignature, UnsubscribeGetSignature, SetSignature,
      SubscribeDownloadFileInfo, UnsubscribeDownloadFileInfo, SetRemoteFileInfo,
      CloseDownloadSession] at hrun
  all_goals (repeat' split at hrun)
  all_goals cases hrun
  all_goals simp only [State.wf, Function.update_apply]
  all_goals
    refine ⟨?_, ?_, ?_, ?_, ?_, ?_⟩
  all_goals
    intro k h hh
    first
    | exact h1 k h hh
    | exact h2 k h hh
    | exact h3 k h hh
    | exact h4 k h hh
    | exact h5 k h hh
    | exact h6 k h hh
    | exact Nat.lt_succ_of_lt (h1 k h hh)
    | exact Nat.lt_succ_of_lt (h2 k h hh)
    | exact Nat.lt_succ_of_lt (h3 k h hh)
    | exact Nat.lt_succ_of_lt (h4 k h hh)
    | exact Nat.lt_succ_of_lt (h5 k h hh)
    | exact Nat.lt_succ_of_lt (h6 k h hh)
    | (split_ifs at hh
       all_goals
         first
         | exact h1 k h hh
         | exact h2 k h hh
         | exact h3 k h hh
         | exact h4 k h hh
         | exact h5 k h hh
         | exact h6 k h hh
         | exact Nat.lt_succ_of_lt (h1 k h hh)
         | exact Nat.lt_succ_of_lt (h2 k h hh)
         | exact Nat.lt_succ_of_lt (h3 k h hh)
         | exact Nat.lt_succ_of_lt (h4 k h hh)
         | exact Nat.lt_succ_of_lt (h5 k h hh)
         | exact Nat.lt_succ_of_lt (h6 k h hh)
         | (cases hh <;> exact Nat.lt_succ_self _))

/-! ## The bounded receive, case by case -/

theorem awaitOn_error {α : Type} (get : State → Chan α) (set : Chan α → State → State)
    (during : List Op) (s : State) (e : Halt) (hbuf : (get s).buf = [])
    (hr : runOps during (set { get s with recvq := (get s).recvq + 1 } s) = .error e) :
    awaitOn get set during s = .error e := by
  unfold awaitOn
  rw [hbuf]
  simp only [hr]

theorem awaitOn_timeout {α : Type} (get : State → Chan α) (set : Chan α → State → State)
    (during : List Op) (s s1 : State) (hbuf : (get s).buf = [])
    (hr : runOps during (set { get s with recvq := (get s).recvq + 1 } s) = .ok s1)
    (hh : (get s1).handed = []) :
    awaitOn get set during s
      = .ok (none, set { get s1 with recvq := (get s1).recvq - 1 } s1) := by
  unfold awaitOn
  rw [hbuf]
  simp only [hr, hh]

theorem awaitOn_recv {α : Type} (get : State → Chan α) (set : Chan α → State → State)
    (during : List Op) (s s1 : State) (v : α) (rest : List α) (hbuf : (get s).buf = [])
    (hr : runOps during (set { get s with recvq := (get s).recvq + 1 } s) = .ok s1)
    (hh : (get s1).handed = v :: rest) :
    awaitOn get set during s = .ok (some v, set { get s1 with handed := rest } s1) := by
  unfold awaitOn
  rw [hbuf]
  simp only [hr, hh]

theorem WaitDownloadSliceDone_timeout (key : String) (during : List Op) (s : State) (hwf : s.wf)
    (hk : ∀ op ∈ during, op.readyKey ≠ some key) :
      WaitDownloadSliceDone key during s = .error .panicTypeAssertion ∨
      ∃ s1, WaitDownloadSliceDone key during s = .ok (some "timeout waiting download slice", s1) ∧
        s1.rpcDownloadReady key = some (.done s.nextChan) ∧
        ∃ s2, SetDownloadSliceDone key s1 = .ok s2 ∧ s2.boolChans = s1.boolChans ∧
          s2.rpcDownloadReady key = none := by
  have hbuf : (((SubscribeDownloadSliceDone key s).2).boolChans
      (SubscribeDownloadSliceDone key s).1).buf = [] := by
    simp [SubscribeDownloadSliceDone, Chan.make]
  rcases hr : runOps during
      { (SubscribeDownloadSliceDone key s).2 with
        boolChans := Function.update (SubscribeDownloadSliceDone key s).2.boolChans
          (SubscribeDownloadSliceDone key s).1
          { ((SubscribeDownloadSliceDone key s).2.boolChans (SubscribeDownloadSliceDone key s).1)
            with recvq := ((SubscribeDownloadSliceDone key s).2.boolChans
              (SubscribeDownloadSliceDone key s).1).recvq + 1 } } with e | s2
  · left
    have h1 : awaitBool (SubscribeDownloadSliceDone key s).1 during
        (SubscribeDownloadSliceDone key s).2 = .error e :=
      awaitOn_error _ _ during _ e hbuf hr
    rw [runOps_error _ _ _ hr] at h1
    unfold WaitDownloadSliceDone
    simp only [h1]
  · right
    have hown := runOps_ownsDone during _ s2 key s.nextChan hr hk
      ⟨Nat.lt_succ_self _, by simp [SubscribeDownloadSliceDone], fun k hkk => by
        simp only [SubscribeDownloadSliceDone, Function.update_apply, hkk, if_false]
        exact fun e => absurd (hwf.2.2.2.1 k _ e) (lt_irrefl _)⟩
    have hch : s2.boolChans s.nextChan = { cap := 0, buf := [], recvq := 1, handed := [] } := by
      rw [hown.2]; simp [SubscribeDownloadSliceDone, Chan.make]
    obtain ⟨s3, h1, hs3⟩ : ∃ s3, awaitBool s.nextChan during (SubscribeDownloadSliceDone key s).2
        = .ok (none, s3) ∧ s3 = { s2 with boolChans := (Function.update s2.boolChans s.nextChan
            { cap := 0, buf := [], recvq := 0, handed := [] }) } :=
      ⟨_, awaitOn_timeout (fun t => t.boolChans s.nextChan)
        (fun c t => { t with boolChans := Function.update t.boolChans s.nextChan c })
        during _ s2 hbuf hr (by show (s2.boolChans s.nextChan).handed = []; rw [hch]),
        by simp only [hch]⟩
    refine ⟨s3, ?_, ?_, ?_⟩
    · unfold WaitDownloadSliceDone
      show (match awaitBool s.nextChan during (SubscribeDownloadSliceDone key s).2 with
        | .ok (none, s2) => _ | .ok (some done, s2) => _ | .error e => _) = _
      rw [h1]
    · rw [hs3]; exact hown.1.2.1
    · simp [hs3, SetDownloadSliceDone, hown.1.2.1, Chan.trySend, UnsubscribeDownloadSliceDone]

theorem SetRemoteFileResult_frame (key : String) (result : Result) (s : State) :
    (SetRemoteFileResult key result s).nextChan = s.nextChan ∧
    (SetRemoteFileResult key result s).u64Chans = s.u64Chans ∧
    (SetRemoteFileResult key result s).boolChans = s.boolChans ∧
    (SetRemoteFileResult key result s).bytesChans = s.bytesChans ∧
    (SetRemoteFileResult key result s).rpcDownloadFileInfo = s.rpcDownloadFileInfo ∧
    (SetRemoteFileResult key result s).rpcDownloadReady = s.rpcDownloadReady ∧
    (SetRemoteFileResult key result s).rpcUploadDataChan = s.rpcUploadDataChan ∧
    (SetRemoteFileResult key result s).rpcSliceEventChan = s.rpcSliceEventChan ∧
    (SetRemoteFileResult key result s).rpcDownSessionClosing = s.rpcDownSessionClosing := by
  unfold SetRemoteFileResult
  split
  · split <;> simp
  · simp

theorem awaitU64_subscribed_timeout (key : String) (during : List Op) (s : State)
    (hfresh : ∀ k, s.rpcDownloadFileInfo k ≠ some s.nextChan)
    (hk : ∀ op ∈ during, op.fileInfoKey ≠ some key) :
    awaitU64 s.nextChan during (SubscribeDownloadFileInfo key s).2 = .error .panicTypeAssertion ∨
    ∃ s1, awaitU64 s.nextChan during (SubscribeDownloadFileInfo key s).2 = .ok (none, s1) ∧
      s1.rpcDownloadFileInfo key = some s.nextChan ∧
      s1.u64Chans s.nextChan = { cap := 0, buf := [], recvq := 0, handed := [] } := by
  have hbuf : (((SubscribeDownloadFileInfo key s).2).u64Chans s.nextChan).buf = [] := by
    simp [SubscribeDownloadFileInfo, Chan.make]
  rcases hr : runOps during
      { (SubscribeDownloadFileInfo key s).2 with
        u64Chans := (Function.update (SubscribeDownloadFileInfo key s).2.u64Chans s.nextChan
          { ((SubscribeDownloadFileInfo key s).2.u64Chans s.nextChan)
            with recvq := ((SubscribeDownloadFileInfo key s).2.u64Chans s.nextChan).recvq + 1 }) }
      with e | s2
  · left
    have h1 : awaitU64 s.nextChan during (SubscribeDownloadFileInfo key s).2 = .error e :=
      awaitOn_error _ _ during _ e hbuf hr
    rw [runOps_error _ _ _ hr] at h1
    exact h1
  · right
    have hown := runOps_ownsInfo during _ s2 key s.nextChan hr hk
      ⟨Nat.lt_succ_self _, by simp [SubscribeDownloadFileInfo], fun k hkk => by
        simp only [SubscribeDownloadFileInfo, Function.update_apply, hkk, if_false]
        exact hfresh k⟩
    have hch : s2.u64Chans s.nextChan = { cap := 0, buf := [], recvq := 1, handed := [] } := by
      rw [hown.2]; simp [SubscribeDownloadFileInfo, Chan.make]
    refine ⟨{ s2 with u64Chans := (Function.update s2.u64Chans s.nextChan
            { cap := 0, buf := [], recvq := 0, handed := [] }) }, ?_, hown.1.2.1, by simp⟩
    have h1 := awaitOn_timeout (fun t => t.u64Chans s.nextChan)
        (fun c t => { t with u64Chans := Function.update t.u64Chans s.nextChan c })
        during _ s2 hbuf hr (by show (s2.u64Chans s.nextChan).handed = []; rw [hch])
    simp only [hch] at h1
    exact h1

theorem GetRemoteFileInfo_timeout (key reqId : String) (during : List Op) (s : State)
    (hwf : s.wf) (hk : ∀ op ∈ during, op.fileInfoKey ≠ some key) :
      GetRemoteFileInfo key reqId during s = .error .panicTypeAssertion ∨
      ∃ s1, GetRemoteFileInfo key reqId during s = .ok (0, s1) ∧
        s1.rpcDownloadFileInfo key = some s.nextChan ∧
        ∀ size, (SetRemoteFileInfo key size s1).u64Chans = s1.u64Chans ∧
          (SetRemoteFileInfo key size s1).rpcDownloadFileInfo key = none := by
  obtain ⟨hn, -, -, -, hreg, -⟩ :=
    SetRemoteFileResult_frame key { Return := .DL_OK_ASK_INFO, ReqId := reqId } s
  have hgo : GetRemoteFileInfo key reqId during s =
      (match awaitU64
          (SetRemoteFileResult key { Return := .DL_OK_ASK_INFO, ReqId := reqId } s).nextChan during
          (SubscribeDownloadFileInfo key
            (SetRemoteFileResult key { Return := .DL_OK_ASK_INFO, ReqId := reqId } s)).2 with
        | .ok (none, s2) => .ok (0, s2)
        | .ok (some fileSize, s2) => .ok (fileSize, UnsubscribeDownloadFileInfo key s2)
        | .error e => .error e) := rfl
  have hfresh : ∀ k, (SetRemoteFileResult key { Return := .DL_OK_ASK_INFO, ReqId := reqId }
      s).rpcDownloadFileInfo k ≠ some
        (SetRemoteFileResult key { Return := .DL_OK_ASK_INFO, ReqId := reqId } s).nextChan := by
    intro k e
    rw [hn, hreg] at e
    exact absurd (hwf.2.2.2.2.2 k _ e) (lt_irrefl _)
  rcases awaitU64_subscribed_timeout key during _ hfresh hk with h1 | ⟨s1, h1, h2, h3⟩
  · left
    rw [hgo, h1]
  · right
    refine ⟨s1, by rw [hgo, h1], by rw [h2, hn], fun size => ?_⟩
    simp [SetRemoteFileInfo, h2, h3, Chan.trySend]

theorem GetSignatureFromRemote_timeout (key : String) (during : List Op) (s : State)
    (hwf : s.wf) (hk : ∀ op ∈ during, op.readyKey ≠ some key) :
      GetSignatureFromRemote key during s = .error .panicTypeAssertion ∨
      ∃ s1, GetSignatureFromRemote key during s = .ok (none, s1) ∧
        s1.rpcDownloadReady key = some (.sig s.nextChan) := by
  have hbuf : (((SubscribeGetSignature key s).2).bytesChans s.nextChan).buf = [] := by
    simp [SubscribeGetSignature, Chan.make]
  have hgo : GetSignatureFromRemote key during s =
      (match awaitBytes s.nextChan during (SubscribeGetSignature key s).2 with
        | .ok (none, s2) => .ok (none, s2)
        | .ok (some signature, s2) => .ok (some signature, UnsubscribeDownloadSliceDone key s2)
        | .error e => .error e) := rfl
  rcases hr : runOps during
      { (SubscribeGetSignature key s).2 with
        bytesChans := (Function.update (SubscribeGetSignature key s).2.bytesChans s.nextChan
          { ((SubscribeGetSignature key s).2.bytesChans s.nextChan)
            with recvq := ((SubscribeGetSignature key s).2.bytesChans s.nextChan).recvq + 1 }) }
      with e | s2
  · left
    have h1 : awaitBytes s.nextChan during (SubscribeGetSignature key s).2 = .error e :=
      awaitOn_error _ _ during _ e hbuf hr
    rw [runOps_error _ _ _ hr] at h1
    rw [hgo, h1]
  · right
    have hown := runOps_ownsSig during _ s2 key s.nextChan hr hk
      ⟨Nat.lt_succ_self _, by simp [SubscribeGetSignature], fun k hkk => by
        simp only [SubscribeGetSignature, Function.update_apply, hkk, if_false]
        exact fun e => absurd (hwf.2.2.2.2.1 k _ e) (lt_irrefl _),
        fun k e => absurd (hwf.2.2.1 k _ e) (lt_irrefl _)⟩
    have hch : s2.bytesChans s.nextChan = { cap := 0, buf := [], recvq := 1, handed := [] } := by
      rw [hown.2]; simp [SubscribeGetSignature, Chan.make]
    have h1 := awaitOn_timeout (fun t => t.bytesChans s.nextChan)
        (fun c t => { t with bytesChans := Function.update t.bytesChans s.nextChan c })
        during _ s2 hbuf hr (by show (s2.bytesChans s.nextChan).handed = []; rw [hch])
    refine ⟨{ s2 with bytesChans := (Function.update s2.bytesChans s.nextChan
            { cap := 0, buf := [], recvq := 0, handed := [] }) }, ?_, hown.1.2.1⟩
    simp only [hch] at h1
    rw [hgo]
    show (match awaitOn (fun t => t.bytesChans s.nextChan)
      (fun c t => { t with bytesChans := Function.update t.bytesChans s.nextChan c })
      during (SubscribeGetSignature key s).2 with
      | .ok (none, s2) => _ | .ok (some signature, s2) => _ | .error e => _) = _
    rw [h1]

/-! ## The receive loop -/

theorem goCopy_append (done c : List Byte) (n : Nat) (hc : c.length ≤ n) :
    goCopy (done ++ List.replicate n 0) done.length c
      = (done ++ c) ++ List.replicate (n - c.length) 0 := by
  unfold goCopy
  simp only [List.length_append, List.length_replicate, add_tsub_cancel_left,
    List.take_left', List.take_of_length_le hc, List.append_assoc, List.append_cancel_left_eq]
  rw [List.drop_append_eq_append_drop]
  simp [List.drop_of_length_le]

theorem awaitBytes_one_chunk (hash : String) (c : List Byte) (s : State) (h : Handle)
    (hreg : s.rpcUploadDataChan hash = some h)
    (hbuf : (s.bytesChans h).buf = []) (hq : (s.bytesChans h).recvq = 0)
    (hh : (s.bytesChans h).handed = []) :
    ∃ s1, awaitBytes h [.sendFileDataBack hash c] s = .ok (some c, s1) ∧
      s1.rpcUploadDataChan hash = some h ∧ uploadIdle s1 hash := by
  simp [awaitBytes, awaitOn, hbuf, runOps, Op.run, SendFileDataBack, hreg, Chan.trySend, hq, hh,
    uploadIdle]

theorem SubscribeGetRemoteFileData_idle (hash : String) (s : State) (hidle : uploadIdle s hash) :
    (SubscribeGetRemoteFileData hash s).2.rpcUploadDataChan hash
        = some (SubscribeGetRemoteFileData hash s).1 ∧
    ((SubscribeGetRemoteFileData hash s).2.bytesChans (SubscribeGetRemoteFileData hash s).1).buf = [] ∧
    ((SubscribeGetRemoteFileData hash s).2.bytesChans (SubscribeGetRemoteFileData hash s).1).recvq = 0 ∧
    ((SubscribeGetRemoteFileData hash s).2.bytesChans (SubscribeGetRemoteFileData hash s).1).handed = []
    := by
  unfold uploadIdle at hidle
  unfold SubscribeGetRemoteFileData
  split
  · next h hreg =>
    rw [hreg] at hidle
    exact ⟨hreg, hidle⟩
  · simp [Chan.make]

theorem sum_length_eq_zero_flatten (chunks : List (List Byte))
    (h : (chunks.map List.length).sum = 0) : chunks.flatten = [] := by
  induction chunks with
  | nil => rfl
  | cons c rest ih =>
    simp only [List.map_cons, List.sum_cons, Nat.add_eq_zero, List.length_eq_zero] at h
    simp [h.1, ih h.2]

theorem loop_assembles (hash : String) (size : Nat) (hsize : size < u64) :
    ∀ (chunks : List (List Byte)) (done : List Byte) (s : State),
      chunks ≠ [] → done.length + (chunks.map List.length).sum = size → uploadIdle s hash →
      ∃ s1, GetRemoteFileData.loop hash size (chunks.map fun c => [Op.sendFileDataBack hash c])
          (done ++ List.replicate (size - done.length) 0) done.length done.length s
        = .ok (some (done ++ chunks.flatten), s1) ∧ s1.rpcUploadDataChan hash = none := by
  intro chunks
  induction chunks with
  | nil => intro _ _ h; exact absurd rfl h
  | cons c rest ih =>
    intro done s _ hsum hidle
    simp only [List.map_cons, List.sum_cons] at hsum
    obtain ⟨hreg, hbuf, hq, hh⟩ := SubscribeGetRemoteFileData_idle hash s hidle
    obtain ⟨s1, hw, hreg1, hidle1⟩ := awaitBytes_one_chunk hash c _ _ hreg hbuf hq hh
    have hc : c.length ≤ size - done.length := by omega
    have hread : (done.length + c.length) % u64 = done.length + c.length :=
      Nat.mod_eq_of_lt (by omega)
    have hdata := goCopy_append done c (size - done.length) hc
    have hlen : (goCopy (done ++ List.replicate (size - done.length) 0) done.length c).length
        = size := by
      rw [hdata]; simp; omega
    rw [List.map_cons, GetRemoteFileData.loop]
    rw [hw]
    dsimp only
    rw [hread, hlen]
    rw [if_neg (by omega)]
    by_cases hfin : size ≤ done.length + c.length
    · rw [if_pos hfin]
      refine ⟨UnsubscribeGetRemoteFileData hash s1, ?_, by simp [UnsubscribeGetRemoteFileData]⟩
      have hz : (rest.map List.length).sum = 0 := by omega
      have hn : size - done.length - c.length = 0 := by omega
      rw [hdata, List.flatten_cons, sum_length_eq_zero_flatten rest hz, hn]
      simp
    · rw [if_neg hfin]
      have hrest : rest ≠ [] := by
        rintro rfl
        simp at hsum
        omega
      have := ih (done ++ c) s1 hrest (by simp; omega) hidle1
      rw [hdata]
      simpa [Nat.sub_sub, List.append_assoc] using this

/-- For a length that `int` can hold, `GetRemoteFileData` publishes the envelope and runs the
receive loop on a zeroed buffer of that length. -/
theorem GetRemoteFileData_eq_loop (hash : String) (off : SliceOffset) (sched : List (List Op))
    (s : State) (hint : off.len < 2 ^ 63) :
    GetRemoteFileData hash (some off) sched s
      = GetRemoteFileData.loop hash off.len sched (List.replicate off.len 0) 0 0
          (SetRemoteFileResult hash
            { Return := .UPLOAD_DATA, OffsetStart := some off.SliceOffsetStart,
              OffsetEnd := some off.SliceOffsetEnd } s) := by
  simp only [GetRemoteFileData]
  rw [if_neg (Nat.not_le.mpr hint)]

/-- One chunk sent while the receiver is parked on an empty channel reaches it, and the
file-event registry and the result channels stay as they were. -/
theorem awaitBytes_one_chunk_frame (hash : String) (c : List Byte) (s : State) (h : Handle)
    (hreg : s.rpcUploadDataChan hash = some h)
    (hbuf : (s.bytesChans h).buf = []) (hq : (s.bytesChans h).recvq = 0)
    (hh : (s.bytesChans h).handed = []) :
    ∃ s1, awaitBytes h [.sendFileDataBack hash c] s = .ok (some c, s1) ∧
      s1.resultChans = s.resultChans ∧ s1.rpcFileEventChan = s.rpcFileEventChan := by
  simp [awaitBytes, awaitOn, hbuf, runOps, Op.run, SendFileDataBack, hreg, Chan.trySend, hq, hh]

theorem SubscribeGetRemoteFileData_frame (hash : String) (s : State) :
    (SubscribeGetRemoteFileData hash s).2.resultChans = s.resultChans ∧
    (SubscribeGetRemoteFileData hash s).2.rpcFileEventChan = s.rpcFileEventChan := by
  unfold SubscribeGetRemoteFileData
  split <;> exact ⟨rfl, rfl⟩

/-- A pass of the receive loop for a zero-length request that finds a chunk in the buffer takes
it at once: a chunk with bytes makes `data[read:]` panic, an empty chunk ends the loop. -/
theorem loop_zero_buffered (hash : String) (s : State) (h : Handle) (v : List Byte)
    (rest : List (List Byte)) (hreg : s.rpcUploadDataChan hash = some h)
    (hbuf : (s.bytesChans h).buf = v :: rest) (during : List Op) (sched : List (List Op))
    (s2 : State)
    (hrun : runOps during { s with bytesChans := (Function.update s.bytesChans h
      { (s.bytesChans h) with buf := rest }) } = .ok s2) :
    GetRemoteFileData.loop hash 0 (during :: sched) [] 0 0 s
      = if 0 < v.length % u64 then .error .panicSliceBounds
        else .ok (some [], UnsubscribeGetRemoteFileData hash s2) := by
  have hsub : SubscribeGetRemoteFileData hash s = (h, s) := by
    simp [SubscribeGetRemoteFileData, hreg]
  have hw : awaitBytes h during s = .ok (some v, s2) := by
    simp only [awaitBytes, awaitOn, hbuf]
    rw [hrun]
  rw [GetRemoteFileData.loop, hsub]
  dsimp only
  rw [hw]
  dsimp only
  simp [goCopy]

/-! ## No receiver on the byte-chunk channels -/

theorem Chan.trySend_quiet {α : Type} (c c1 : Chan α) (v : α)
    (hq : c.recvq = 0 ∧ c.handed = []) (h : c.trySend v = some c1) :
    c1.recvq = 0 ∧ c1.handed = [] := by
  unfold Chan.trySend at h
  rw [hq.1] at h
  by_cases hb : c.buf.length < c.cap
  · simp only [Nat.lt_irrefl, if_false, hb, if_true, Option.some.injEq] at h
    subst h
    exact ⟨rfl, hq.2⟩
  · simp [hb] at h

theorem State.init_uploadQuiet : State.init.uploadQuiet := by
  intro k h hh
  simp [State.init] at hh

theorem Op.run_uploadQuiet (op : Op) (s s1 : State) (hrun : op.run s = .ok s1)
    (hq : s.uploadQuiet) : s1.uploadQuiet := by
  cases op <;>
    simp only [Op.run, SubscribeGetRemoteFileData, UnsubscribeGetRemoteFileData, SendFileDataBack,
      SubscribeRemoteFileEvent, UnsubscribeRemoteFileEvent, SetRemoteFileResult,
      SubscribeRemoteSliceEvent, UnsubscribeRemoteSliceEvent, SetRemoteSliceResult,
      SubscribeDownloadSliceDone, UnsubscribeDownloadSliceDone, SetDownloadSliceDone,
      SubscribeGetSignature, UnsubscribeGetSignature, SetSignature,
      SubscribeDownloadFileInfo, UnsubscribeDownloadFileInfo, SetRemoteFileInfo,
      CloseDownloadSession] at hrun
  all_goals (repeat' split at hrun)
  all_goals cases hrun
  all_goals intro k h hh
  all_goals try simp only [Function.update_apply] at hh ⊢
  all_goals
    first
    | exact hq k h hh
    | (split_ifs at hh ⊢
       all_goals
         first
         | exact hq k h hh
         | exact ⟨rfl, rfl⟩
         | exact absurd (Option.some.inj hh).symm (by assumption)
         | (subst_vars; exact Chan.trySend_quiet _ _ _ (hq _ _ (by assumption)) (by assumption)))

theorem runOps_uploadQuiet (ops : List Op) (s s1 : State) (hrun : runOps ops s = .ok s1)
    (hq : s.uploadQuiet) : s1.uploadQuiet := by
  induction ops generalizing s with
  | nil =>
    simp only [runOps, Except.ok.injEq] at hrun
    subst hrun
    exact hq
  | cons op rest ih =>
    simp only [runOps] at hrun
    split at hrun
    · next s2 hs2 => exact ih s2 hrun (Op.run_uploadQuiet op s s2 hs2 hq)
    · cases hrun

theorem uploadIdle_of_quiet_empty (s : State) (hash : String) (hq : s.uploadQuiet)
    (hempty : uploadEmpty s hash) : uploadIdle s hash := by
  unfold uploadIdle
  split
  · trivial
  · next h hreg => exact ⟨hempty h hreg, hq hash h hreg⟩

theorem staleUploadState_uploadQuiet : staleUploadState.uploadQuiet := by
  have hreg : staleUploadState.rpcUploadDataChan
      = Function.update (fun _ => none) "h" (some 0) := rfl
  have hch : staleUploadState.bytesChans 0
      = { cap := 5, buf := [[9]], recvq := 0, handed := [] } := rfl
  intro k h hh
  rw [hreg, Function.update_apply] at hh
  split_ifs at hh
  cases hh
  rw [hch]
  exact ⟨rfl, rfl⟩

/-! ## The claims -/

/-- C1, counterexample: from the initial state, `SubscribeRemoteFileEvent "f1"` followed at once
by `SetRemoteFileResult "f1" v` and then a bounded wait on the returned handle: the wait times
out and does not yield `v`. -/
theorem subscribe_publish_wait_times_out :
    (∃ s2, awaitResult (SubscribeRemoteFileEvent "f1" State.init).1 []
        (SetRemoteFileResult "f1" { Return := .DOWNLOAD_OK, FileData := "AB" }
          (SubscribeRemoteFileEvent "f1" State.init).2) = .ok (none, s2)) ∧
    ¬ ∃ s2, awaitResult (SubscribeRemoteFileEvent "f1" State.init).1 []
        (SetRemoteFileResult "f1" { Return := .DOWNLOAD_OK, FileData := "AB" }
          (SubscribeRemoteFileEvent "f1" State.init).2)
        = .ok (some { Return := .DOWNLOAD_OK, FileData := "AB" }, s2) := by
  constructor
  · exact ⟨_, rfl⟩
  · rintro ⟨s2, h⟩
    simp [awaitResult, awaitOn, SubscribeRemoteFileEvent, SetRemoteFileResult, Chan.trySend,
      Chan.make, runOps] at h

/-- C1, as amended: for every key, value and state, after `SubscribeRemoteFileEvent key`
(1) a `SetRemoteFileResult key v` that runs while no receiver is parked on the handle delivers
nothing and deletes the entry, and a bounded wait on the handle then times out;
(2) a `SetRemoteFileResult key v` that runs while the receiver is parked in its bounded wait on
the handle makes that wait yield `v`, and afterwards a second wait, on the same handle or on a new
subscription of the key, times out. -/
theorem publish_reaches_only_a_parked_receiver (key : String) (v : Result) (s : State) :
    ((SetRemoteFileResult key v (SubscribeRemoteFileEvent key s).2).rpcFileEventChan key = none ∧
      ∃ s2, awaitResult (SubscribeRemoteFileEvent key s).1 []
        (SetRemoteFileResult key v (SubscribeRemoteFileEvent key s).2) = .ok (none, s2)) ∧
    ∃ s2, awaitResult (SubscribeRemoteFileEvent key s).1 [.setRemoteFileResult key v]
        (SubscribeRemoteFileEvent key s).2 = .ok (some v, s2) ∧
      (∃ s3, awaitResult (SubscribeRemoteFileEvent key s).1 [] s2 = .ok (none, s3)) ∧
      ∃ s3, awaitResult (SubscribeRemoteFileEvent key s2).1 []
        (SubscribeRemoteFileEvent key s2).2 = .ok (none, s3) := by
  refine ⟨⟨?_, ?_⟩, ?_⟩
  · simp [SubscribeRemoteFileEvent, SetRemoteFileResult, Chan.trySend, Chan.make]
  · simp [awaitResult, awaitOn, SubscribeRemoteFileEvent, SetRemoteFileResult, Chan.trySend,
      Chan.make, runOps]
  · simp [awaitResult, awaitOn, SubscribeRemoteFileEvent, SetRemoteFileResult, Chan.trySend,
      Chan.make, runOps, Op.run]

/-- C2, counterexample: from the initial state with no concurrent operation, each of the three
bounded waits on key `"k"` returns its timeout outcome and the entry it created for `"k"` is
still registered; the following `SetDownloadSliceDone "k"` finds it and changes the registry. -/
theorem timed_out_wait_leaves_entry :
    (∃ s1, WaitDownloadSliceDone "k" [] State.init
        = .ok (some "timeout waiting download slice", s1) ∧
      s1.rpcDownloadReady "k" = some (.done 0) ∧
      ∃ s2, SetDownloadSliceDone "k" s1 = .ok s2 ∧ s2.rpcDownloadReady "k" ≠ s1.rpcDownloadReady "k") ∧
    (∃ s1, GetRemoteFileInfo "k" "r" [] State.init = .ok (0, s1) ∧
      s1.rpcDownloadFileInfo "k" = some 0) ∧
    (∃ s1, GetSignatureFromRemote "k" [] State.init = .ok (none, s1) ∧
      s1.rpcDownloadReady "k" = some (.sig 0)) := by
  refine ⟨⟨_, rfl, rfl, _, rfl, by decide⟩, ⟨_, rfl, rfl⟩, ⟨_, rfl, rfl⟩⟩

/-- C2, as amended: in a state whose registries hold allocated handles only, when no operation
that runs during the wait stores, deletes or publishes the entry of `key` (no matching publish),
each bounded wait either is cut short by a panic of another goroutine or returns its timeout
outcome with the entry it created for `key` still registered; the following
`SetDownloadSliceDone key` (`SetRemoteFileInfo key size`) delivers nothing and deletes that
entry. -/
theorem timed_out_wait_keeps_entry (key : String) (during : List Op) (s : State) (hwf : s.wf) :
    ((∀ op ∈ during, op.readyKey ≠ some key) →
      WaitDownloadSliceDone key during s = .error .panicTypeAssertion ∨
      ∃ s1, WaitDownloadSliceDone key during s = .ok (some "timeout waiting download slice", s1) ∧
        s1.rpcDownloadReady key = some (.done s.nextChan) ∧
        ∃ s2, SetDownloadSliceDone key s1 = .ok s2 ∧ s2.boolChans = s1.boolChans ∧
          s2.rpcDownloadReady key = none) ∧
    ((∀ op ∈ during, op.fileInfoKey ≠ some key) → ∀ reqId,
      GetRemoteFileInfo key reqId during s = .error .panicTypeAssertion ∨
      ∃ s1, GetRemoteFileInfo key reqId during s = .ok (0, s1) ∧
        s1.rpcDownloadFileInfo key = some s.nextChan ∧
        ∀ size, (SetRemoteFileInfo key size s1).u64Chans = s1.u64Chans ∧
          (SetRemoteFileInfo key size s1).rpcDownloadFileInfo key = none) ∧
    ((∀ op ∈ during, op.readyKey ≠ some key) →
      GetSignatureFromRemote key during s = .error .panicTypeAssertion ∨
      ∃ s1, GetSignatureFromRemote key during s = .ok (none, s1) ∧
        s1.rpcDownloadReady key = some (.sig s.nextChan)) :=
  ⟨fun hk => WaitDownloadSliceDone_timeout key during s hwf hk,
    fun hk reqId => GetRemoteFileInfo_timeout key reqId during s hwf hk,
    fun hk => GetSignatureFromRemote_timeout key during s hwf hk⟩

/-- C2, witness: the amended statement at key `"k"` in the initial state, while other goroutines
work on other keys. -/
theorem timed_out_wait_keeps_entry_witness :
    State.init.wf ∧ (∀ op ∈ otherKeyOps, op.readyKey ≠ some "k") ∧
    (∀ op ∈ otherKeyOps, op.fileInfoKey ≠ some "k") ∧
    (WaitDownloadSliceDone "k" otherKeyOps State.init = .error .panicTypeAssertion ∨
      ∃ s1, WaitDownloadSliceDone "k" otherKeyOps State.init
          = .ok (some "timeout waiting download slice", s1) ∧
        s1.rpcDownloadReady "k" = some (.done State.init.nextChan) ∧
        ∃ s2, SetDownloadSliceDone "k" s1 = .ok s2 ∧ s2.boolChans = s1.boolChans ∧
          s2.rpcDownloadReady "k" = none) ∧
    (GetRemoteFileInfo "k" "r" otherKeyOps State.init = .error .panicTypeAssertion ∨
      ∃ s1, GetRemoteFileInfo "k" "r" otherKeyOps State.init = .ok (0, s1) ∧
        s1.rpcDownloadFileInfo "k" = some State.init.nextChan ∧
        ∀ size, (SetRemoteFileInfo "k" size s1).u64Chans = s1.u64Chans ∧
          (SetRemoteFileInfo "k" size s1).rpcDownloadFileInfo "k" = none) ∧
    (GetSignatureFromRemote "k" otherKeyOps State.init = .error .panicTypeAssertion ∨
      ∃ s1, GetSignatureFromRemote "k" otherKeyOps State.init = .ok (none, s1) ∧
        s1.rpcDownloadReady "k" = some (.sig State.init.nextChan)) ∧
    (∃ s1, WaitDownloadSliceDone "k" otherKeyOps State.init
      = .ok (some "timeout waiting download slice", s1)) ∧
    (∃ s1, GetRemoteFileInfo "k" "r" otherKeyOps State.init = .ok (0, s1)) ∧
    ∃ s1, GetSignatureFromRemote "k" otherKeyOps State.init = .ok (none, s1) :=
  have h := timed_out_wait_keeps_entry "k" otherKeyOps State.init State.init_wf
  ⟨State.init_wf, by decide, by decide, h.1 (by decide), h.2.1 (by decide) "r",
    h.2.2 (by decide), ⟨_, rfl⟩, ⟨_, rfl⟩, ⟨_, rfl⟩⟩

/-- C3, failing input: `SubscribeDownloadSliceDone "k"` then `SubscribeGetSignature "k"` from the
initial state.  Both store into `rpcDownloadReady`: the signature channel replaces the
download-completion entry of `"k"`, `SetDownloadSliceDone "k"` then panics in its type
assertion, and so does `SetSignature "k"` on a download-completion entry. -/
theorem signature_and_download_share_registry :
    (SubscribeDownloadSliceDone "k" State.init).2.rpcDownloadReady "k" = some (.done 0) ∧
    (SubscribeGetSignature "k" (SubscribeDownloadSliceDone "k" State.init).2).2.rpcDownloadReady "k"
      = some (.sig 1) ∧
    SetDownloadSliceDone "k" (SubscribeGetSignature "k" (SubscribeDownloadSliceDone "k"
      State.init).2).2 = .error .panicTypeAssertion ∧
    (UnsubscribeGetSignature "k" (SubscribeDownloadSliceDone "k" State.init).2).rpcDownloadReady "k"
      = none ∧
    SetSignature "k" [1] (SubscribeDownloadSliceDone "k" State.init).2
      = .error .panicTypeAssertion :=
  ⟨rfl, rfl, rfl, rfl, rfl⟩

/-- C4, counterexample: three requests for which the claim fails.
(1) A request of length 0 with the empty sequence of chunks: with no chunk delivered the call is
still waiting; when the timer fires it returns `nil` and the entry it created for the hash stays
registered.
(2) The range from 0 to 1 in the state left by a timed-out fetch and one late chunk `[9]`: the
chunk `[1]` is delivered while the fetch waits, and the fetch returns the late chunk `[9]`.
(3) The reversed range from 1 to 0, of length `2 ^ 64 - 1`: `make` panics, whatever the chunks
are. -/
theorem chunked_fetch_fails_three_ways :
    (GetRemoteFileData "h" (some ⟨0, 0⟩)
        (([] : List (List Byte)).map fun c => [Op.sendFileDataBack "h" c]) State.init
        = .error .blocked ∧
      ∃ s1, GetRemoteFileData "h" (some ⟨0, 0⟩) [[]] State.init = .ok (none, s1) ∧
        s1.rpcUploadDataChan "h" = some 0) ∧
    (staleUploadState.rpcUploadDataChan "h" = some 0 ∧
      (staleUploadState.bytesChans 0).buf = [[9]] ∧
      (([[1]] : List (List Byte)).map List.length).sum = (⟨0, 1⟩ : SliceOffset).len ∧
      ∃ s1, GetRemoteFileData "h" (some ⟨0, 1⟩)
          (([[1]] : List (List Byte)).map fun c => [Op.sendFileDataBack "h" c]) staleUploadState
        = .ok (some [9], s1)) ∧
    ((⟨1, 0⟩ : SliceOffset).len = 2 ^ 64 - 1 ∧
      ∀ chunks : List (List Byte), GetRemoteFileData "h" (some ⟨1, 0⟩)
          (chunks.map fun c => [Op.sendFileDataBack "h" c]) State.init
        = .error .panicMakeSliceLen) :=
  ⟨⟨rfl, _, rfl, rfl⟩, ⟨rfl, rfl, by decide, _, rfl⟩, by decide, fun _ => rfl⟩

/-- C4, as amended: for every requested range whose length is below `2 ^ 63`, every non-empty
sequence of chunks whose lengths sum to exactly the requested length, each sent with
`SendFileDataBack` while the fetch waits in its `select`, and every state in which the hash has
no byte-chunk entry or one whose channel holds no chunk, `GetRemoteFileData` returns the
concatenation of the chunks in delivery order, a buffer of the requested length, and leaves no
byte-chunk entry for the hash.  The state satisfies the invariant that no receiver is parked on
a byte-chunk channel. -/
theorem chunked_fetch_assembles (hash : String) (offset : SliceOffset)
    (chunks : List (List Byte)) (s : State) (hne : chunks ≠ [])
    (hsum : (chunks.map List.length).sum = offset.len) (hint : offset.len < 2 ^ 63)
    (hquiet : s.uploadQuiet) (hempty : uploadEmpty s hash) :
    ∃ s1, GetRemoteFileData hash (some offset)
        (chunks.map fun c => [Op.sendFileDataBack hash c]) s = .ok (some chunks.flatten, s1) ∧
      chunks.flatten.length = offset.len ∧ s1.rpcUploadDataChan hash = none := by
  have hsize : offset.len < u64 := Nat.mod_lt _ (by decide)
  have hidle := uploadIdle_of_quiet_empty s hash hquiet hempty
  have hidle1 : uploadIdle (SetRemoteFileResult hash
      { Return := .UPLOAD_DATA, OffsetStart := some offset.SliceOffsetStart,
        OffsetEnd := some offset.SliceOffsetEnd } s) hash := by
    obtain ⟨-, -, -, hb, -, -, hu, -⟩ := SetRemoteFileResult_frame hash
      { Return := .UPLOAD_DATA, OffsetStart := some offset.SliceOffsetStart,
        OffsetEnd := some offset.SliceOffsetEnd } s
    unfold uploadIdle
    rw [hu, hb]
    exact hidle
  obtain ⟨s1, h1, h2⟩ := loop_assembles hash offset.len hsize chunks [] _ hne
    (by simpa using hsum) hidle1
  refine ⟨s1, ?_, ?_, h2⟩
  · rw [GetRemoteFileData_eq_loop hash offset _ s hint]
    simpa using h1
  · rw [← hsum, List.length_flatten]

/-- C4, witness: a range of length 10 delivered as chunks of lengths 4 and 6. -/
theorem chunked_fetch_assembles_witness :
    ∃ s1, GetRemoteFileData "h" (some ⟨100, 110⟩)
        ([[1, 2, 3, 4], [5, 6, 7, 8, 9, 10]].map fun c => [Op.sendFileDataBack "h" c]) State.init
        = .ok (some [[1, 2, 3, 4], [5, 6, 7, 8, 9, 10]].flatten, s1) ∧
      [[1, 2, 3, 4], [5, 6, 7, 8, 9, 10]].flatten.length = (⟨100, 110⟩ : SliceOffset).len ∧
      s1.rpcUploadDataChan "h" = none :=
  chunked_fetch_assembles "h" ⟨100, 110⟩ [[1, 2, 3, 4], [5, 6, 7, 8, 9, 10]] State.init
    (by decide) (by decide) (by decide) State.init_uploadQuiet (by simp [uploadEmpty, State.init])

/-- C5: for every key without an entry in the registry a publish reads, and every value, each of
the six publish operations returns normally and returns the state unchanged. -/
theorem publish_without_entry_is_noop (key : String) (s : State) :
    (∀ result, s.rpcFileEventChan key = none → SetRemoteFileResult key result s = s) ∧
    (∀ result, s.rpcSliceEventChan key = none → SetRemoteSliceResult key result s = s) ∧
    (∀ content, s.rpcUploadDataChan key = none → SendFileDataBack key content s = s) ∧
    (s.rpcDownloadReady key = none → SetDownloadSliceDone key s = .ok s) ∧
    (∀ sig, s.rpcDownloadReady key = none → SetSignature key sig s = .ok s) ∧
    (∀ size, s.rpcDownloadFileInfo key = none → SetRemoteFileInfo key size s = s) := by
  refine ⟨?_, ?_, ?_, ?_, ?_, ?_⟩
  · intro r h; simp [SetRemoteFileResult, h]
  · intro r h; simp [SetRemoteSliceResult, h]
  · intro r h; simp [SendFileDataBack, h]
  · intro h; simp [SetDownloadSliceDone, h]
  · intro r h; simp [SetSignature, h]
  · intro r h; simp [SetRemoteFileInfo, h]

/-- C5, witness: the six publishes on key `"k"` in the initial state. -/
theorem publish_without_entry_is_noop_witness :
    SetRemoteFileResult "k" { Return := .DOWNLOAD_OK } State.init = State.init ∧
    SetRemoteSliceResult "k" { Return := .DOWNLOAD_OK } State.init = State.init ∧
    SendFileDataBack "k" [1, 2] State.init = State.init ∧
    SetDownloadSliceDone "k" State.init = .ok State.init ∧
    SetSignature "k" [7] State.init = .ok State.init ∧
    SetRemoteFileInfo "k" 42 State.init = State.init :=
  have h := publish_without_entry_is_noop "k" State.init
  ⟨h.1 _ rfl, h.2.1 _ rfl, h.2.2.1 _ rfl, h.2.2.2.1 rfl, h.2.2.2.2.1 _ rfl, h.2.2.2.2.2 _ rfl⟩

/-- After two subscriptions in a row the first handle is orphaned. -/
theorem subscribeFileTwice_orphaned (key : String) (s : State) (hwf : s.wf) :
    orphaned (subscribeFileTwice key s).2.2 (subscribeFileTwice key s).1 := by
  refine ⟨?_, fun k => ?_, fun k e => ?_⟩
  · exact Nat.lt_succ_of_lt (Nat.lt_succ_self s.nextChan)
  · simp only [subscribeFileTwice, SubscribeRemoteFileEvent, Function.update_apply]
    split_ifs
    · simp
    · exact fun e => absurd (hwf.1 k _ e) (lt_irrefl _)
  · exact absurd (hwf.2.1 k _ e) (lt_irrefl _)

theorem subscribeSliceTwice_orphaned (key : String) (s : State) (hwf : s.wf) :
    orphaned (subscribeSliceTwice key s).2.2 (subscribeSliceTwice key s).1 := by
  refine ⟨?_, fun k e => ?_, fun k => ?_⟩
  · exact Nat.lt_succ_of_lt (Nat.lt_succ_self s.nextChan)
  · exact absurd (hwf.1 k _ e) (lt_irrefl _)
  · simp only [subscribeSliceTwice, SubscribeRemoteSliceEvent, Function.update_apply]
    split_ifs
    · simp
    · exact fun e => absurd (hwf.2.1 k _ e) (lt_irrefl _)

/-- A bounded wait on an orphaned, empty channel never receives. -/
theorem awaitResult_orphaned (h : Handle) (during : List Op) (s : State)
    (horph : orphaned s h) (hbuf : (s.resultChans h).buf = [])
    (hh : (s.resultChans h).handed = []) :
    awaitResult h during s = .error .panicTypeAssertion ∨
    ∃ s1, awaitResult h during s = .ok (none, s1) := by
  rcases hr : runOps during
      { s with resultChans := (Function.update s.resultChans h
          { (s.resultChans h) with recvq := (s.resultChans h).recvq + 1 }) } with e | s2
  · left
    have h1 : awaitResult h during s = .error e := awaitOn_error _ _ during _ e hbuf hr
    rw [runOps_error _ _ _ hr] at h1
    exact h1
  · right
    have ho := runOps_orphaned during _ s2 h hr ⟨horph.1, horph.2.1, horph.2.2⟩
    have hch : (s2.resultChans h).handed = [] := by
      rw [ho.2]; simp [hh]
    exact ⟨_, awaitOn_timeout (fun t => t.resultChans h)
        (fun c t => { t with resultChans := Function.update t.resultChans h c })
        during _ s2 hbuf hr hch⟩

/-- C6: in a state whose registries hold allocated handles only, after two calls of
`SubscribeRemoteFileEvent key` (of `SubscribeRemoteSliceEvent key`) in a row the handles differ
and the registry holds the second one; a publish for the key reaches a receiver parked on the
second handle and changes no other channel; and whatever the other goroutines do, a bounded wait
on the first handle receives nothing: it times out, unless another goroutine panics. -/
theorem second_subscription_wins (key : String) (s : State) (hwf : s.wf) :
    ((subscribeFileTwice key s).1 ≠ (subscribeFileTwice key s).2.1 ∧
      (subscribeFileTwice key s).2.2.rpcFileEventChan key = some (subscribeFileTwice key s).2.1 ∧
      (∀ v, ∃ s3, awaitResult (subscribeFileTwice key s).2.1 [.setRemoteFileResult key v]
        (subscribeFileTwice key s).2.2 = .ok (some v, s3)) ∧
      (∀ v h, h ≠ (subscribeFileTwice key s).2.1 →
        (SetRemoteFileResult key v (subscribeFileTwice key s).2.2).resultChans h
          = (subscribeFileTwice key s).2.2.resultChans h) ∧
      ∀ during, awaitResult (subscribeFileTwice key s).1 during (subscribeFileTwice key s).2.2
          = .error .panicTypeAssertion ∨
        ∃ s3, awaitResult (subscribeFileTwice key s).1 during (subscribeFileTwice key s).2.2
          = .ok (none, s3)) ∧
    ((subscribeSliceTwice key s).1 ≠ (subscribeSliceTwice key s).2.1 ∧
      (subscribeSliceTwice key s).2.2.rpcSliceEventChan key = some (subscribeSliceTwice key s).2.1 ∧
      (∀ v, ∃ s3, awaitResult (subscribeSliceTwice key s).2.1 [.setRemoteSliceResult key v]
        (subscribeSliceTwice key s).2.2 = .ok (some v, s3)) ∧
      (∀ v h, h ≠ (subscribeSliceTwice key s).2.1 →
        (SetRemoteSliceResult key v (subscribeSliceTwice key s).2.2).resultChans h
          = (subscribeSliceTwice key s).2.2.resultChans h) ∧
      ∀ during, awaitResult (subscribeSliceTwice key s).1 during (subscribeSliceTwice key s).2.2
          = .error .panicTypeAssertion ∨
        ∃ s3, awaitResult (subscribeSliceTwice key s).1 during (subscribeSliceTwice key s).2.2
          = .ok (none, s3)) := by
  refine ⟨⟨?_, ?_, ?_, ?_, ?_⟩, ⟨?_, ?_, ?_, ?_, ?_⟩⟩
  · exact Nat.ne_of_lt (Nat.lt_succ_self s.nextChan)
  · simp [subscribeFileTwice, SubscribeRemoteFileEvent]
  · intro v
    simp [subscribeFileTwice, awaitResult, awaitOn, SubscribeRemoteFileEvent, SetRemoteFileResult,
      Chan.trySend, Chan.make, runOps, Op.run]
  · intro v h hne
    simp [subscribeFileTwice, SubscribeRemoteFileEvent, SetRemoteFileResult, Chan.trySend,
      Chan.make]
  · intro during
    exact awaitResult_orphaned _ during _ (subscribeFileTwice_orphaned key s hwf)
      (by simp [subscribeFileTwice, SubscribeRemoteFileEvent, Chan.make])
      (by simp [subscribeFileTwice, SubscribeRemoteFileEvent, Chan.make])
  · exact Nat.ne_of_lt (Nat.lt_succ_self s.nextChan)
  · simp [subscribeSliceTwice, SubscribeRemoteSliceEvent]
  · intro v
    simp [subscribeSliceTwice, awaitResult, awaitOn, SubscribeRemoteSliceEvent,
      SetRemoteSliceResult, Chan.trySend, Chan.make, runOps, Op.run]
  · intro v h hne
    simp [subscribeSliceTwice, SubscribeRemoteSliceEvent, SetRemoteSliceResult, Chan.trySend,
      Chan.make]
  · intro during
    exact awaitResult_orphaned _ during _ (subscribeSliceTwice_orphaned key s hwf)
      (by simp [subscribeSliceTwice, SubscribeRemoteSliceEvent, Chan.make])
      (by simp [subscribeSliceTwice, SubscribeRemoteSliceEvent, Chan.make])

/-- C6, witness: two subscriptions of `"k"` in the initial state, then two publishes for
`"k"` while a receiver waits on the first handle. -/
theorem second_subscription_wins_witness :
    State.init.wf ∧
    (subscribeFileTwice "k" State.init).1 ≠ (subscribeFileTwice "k" State.init).2.1 ∧
    (subscribeFileTwice "k" State.init).2.2.rpcFileEventChan "k"
      = some (subscribeFileTwice "k" State.init).2.1 ∧
    (awaitResult (subscribeFileTwice "k" State.init).1
        [.setRemoteFileResult "k" { Return := .DOWNLOAD_OK },
          .setRemoteFileResult "k" { Return := .DOWNLOAD_OK }]
        (subscribeFileTwice "k" State.init).2.2 = .error .panicTypeAssertion ∨
      ∃ s3, awaitResult (subscribeFileTwice "k" State.init).1
        [.setRemoteFileResult "k" { Return := .DOWNLOAD_OK },
          .setRemoteFileResult "k" { Return := .DOWNLOAD_OK }]
        (subscribeFileTwice "k" State.init).2.2 = .ok (none, s3)) ∧
    ∃ s3, awaitResult (subscribeFileTwice "k" State.init).1
      [.setRemoteFileResult "k" { Return := .DOWNLOAD_OK },
        .setRemoteFileResult "k" { Return := .DOWNLOAD_OK }]
      (subscribeFileTwice "k" State.init).2.2 = .ok (none, s3) :=
  have h := (second_subscription_wins "k" State.init State.init_wf).1
  ⟨State.init_wf, h.1, h.2.1, h.2.2.2.2 _, ⟨_, rfl⟩⟩

/-- C7, counterexample: from the initial state the second `SubscribeGetRemoteFileData "k"`
returns the handle of the first call; it is not a different handle. -/
theorem upload_subscribe_twice_same_handle :
    (SubscribeGetRemoteFileData "k" (SubscribeGetRemoteFileData "k" State.init).2).1
      = (SubscribeGetRemoteFileData "k" State.init).1 ∧
    ¬ (SubscribeGetRemoteFileData "k" (SubscribeGetRemoteFileData "k" State.init).2).1
      ≠ (SubscribeGetRemoteFileData "k" State.init).1 :=
  ⟨rfl, fun h => h rfl⟩

/-- C7, as amended: for every key and state, `SubscribeGetRemoteFileData key` returns the handle
registered for the key; when the key has no entry this is a newly made empty channel with a
buffer of `NUMBER_OF_UPLOAD_CHAN_BUFFER` chunks, and when it has one, that one.  A second call
for the same key returns the same handle and changes nothing. -/
theorem upload_subscribe_reuses_channel (key : String) (s : State) :
    (SubscribeGetRemoteFileData key s).2.rpcUploadDataChan key
      = some (SubscribeGetRemoteFileData key s).1 ∧
    (s.rpcUploadDataChan key = none →
      (SubscribeGetRemoteFileData key s).1 = s.nextChan ∧
      (SubscribeGetRemoteFileData key s).2.nextChan = s.nextChan + 1 ∧
      (SubscribeGetRemoteFileData key s).2.bytesChans s.nextChan
        = Chan.make (List Byte) NUMBER_OF_UPLOAD_CHAN_BUFFER) ∧
    (∀ h, s.rpcUploadDataChan key = some h → SubscribeGetRemoteFileData key s = (h, s)) ∧
    SubscribeGetRemoteFileData key (SubscribeGetRemoteFileData key s).2
      = SubscribeGetRemoteFileData key s := by
  refine ⟨?_, ?_, ?_, ?_⟩
  · unfold SubscribeGetRemoteFileData
    split
    · assumption
    · simp
  · intro h
    simp [SubscribeGetRemoteFileData, h]
  · intro h hh
    simp [SubscribeGetRemoteFileData, hh]
  · cases hreg : s.rpcUploadDataChan key with
    | none => simp [SubscribeGetRemoteFileData, hreg]
    | some h => simp [SubscribeGetRemoteFileData, hreg]

/-- C7, witness: key `"k"` in the initial state. -/
theorem upload_subscribe_reuses_channel_witness :
    State.init.rpcUploadDataChan "k" = none ∧
    (SubscribeGetRemoteFileData "k" State.init).1 = State.init.nextChan ∧
    (SubscribeGetRemoteFileData "k" State.init).2.nextChan = State.init.nextChan + 1 ∧
    (SubscribeGetRemoteFileData "k" State.init).2.bytesChans State.init.nextChan
      = Chan.make (List Byte) NUMBER_OF_UPLOAD_CHAN_BUFFER :=
  ⟨rfl, (upload_subscribe_reuses_channel "k" State.init).2.1 rfl⟩

/-- A publish to a stale entry of the type it expects: for every key with a registered entry
whose channel has no parked receiver and no room in its buffer, each of the five publishes
returns normally, leaves every channel as it was and deletes the entry of the key (for
`SetDownloadSliceDone` the entry is a download-completion channel). -/
theorem publish_to_stale_entry_removes_it (key : String) (s : State) (h : Handle) :
    (∀ result, s.rpcFileEventChan key = some h → (s.resultChans h).recvq = 0 →
      (s.resultChans h).cap ≤ (s.resultChans h).buf.length →
      SetRemoteFileResult key result s
        = { s with rpcFileEventChan := Function.update s.rpcFileEventChan key none }) ∧
    (∀ result, s.rpcSliceEventChan key = some h → (s.resultChans h).recvq = 0 →
      (s.resultChans h).cap ≤ (s.resultChans h).buf.length →
      SetRemoteSliceResult key result s
        = { s with rpcSliceEventChan := Function.update s.rpcSliceEventChan key none }) ∧
    (s.rpcDownloadReady key = some (.done h) → (s.boolChans h).recvq = 0 →
      (s.boolChans h).cap ≤ (s.boolChans h).buf.length →
      SetDownloadSliceDone key s
        = .ok { s with rpcDownloadReady := Function.update s.rpcDownloadReady key none }) ∧
    (∀ size, s.rpcDownloadFileInfo key = some h → (s.u64Chans h).recvq = 0 →
      (s.u64Chans h).cap ≤ (s.u64Chans h).buf.length →
      SetRemoteFileInfo key size s
        = { s with rpcDownloadFileInfo := Function.update s.rpcDownloadFileInfo key none }) ∧
    (∀ content, s.rpcUploadDataChan key = some h → (s.bytesChans h).recvq = 0 →
      (s.bytesChans h).cap ≤ (s.bytesChans h).buf.length →
      SendFileDataBack key content s
        = { s with rpcUploadDataChan := Function.update s.rpcUploadDataChan key none }) := by
  refine ⟨?_, ?_, ?_, ?_, ?_⟩
  · intro v hreg hq hfull
    simp [SetRemoteFileResult, hreg, trySend_none_of_full _ v hq hfull]
  · intro v hreg hq hfull
    simp [SetRemoteSliceResult, hreg, trySend_none_of_full _ v hq hfull]
  · intro hreg hq hfull
    simp [SetDownloadSliceDone, hreg, trySend_none_of_full _ true hq hfull,
      UnsubscribeDownloadSliceDone]
  · intro v hreg hq hfull
    simp [SetRemoteFileInfo, hreg, trySend_none_of_full _ v hq hfull]
  · intro v hreg hq hfull
    simp [SendFileDataBack, hreg, trySend_none_of_full _ v hq hfull,
      UnsubscribeGetRemoteFileData]

/-- The same at key `"k"`: a publish right after the subscription, with no receiver parked, in
each registry; for the byte-chunk registry after five chunks have filled the buffer. -/
theorem publish_to_stale_entry_removes_it_witness :
    (SetRemoteFileResult "k" { Return := .DOWNLOAD_OK }
        (SubscribeRemoteFileEvent "k" State.init).2).rpcFileEventChan "k" = none ∧
    (SetRemoteSliceResult "k" { Return := .DOWNLOAD_OK }
        (SubscribeRemoteSliceEvent "k" State.init).2).rpcSliceEventChan "k" = none ∧
    (SetDownloadSliceDone "k" (SubscribeDownloadSliceDone "k" State.init).2).map
      (fun t => t.rpcDownloadReady "k") = .ok none ∧
    (SetRemoteFileInfo "k" 42 (SubscribeDownloadFileInfo "k" State.init).2).rpcDownloadFileInfo "k"
      = none ∧
    (SendFileDataBack "k" [6] fullUploadState).rpcUploadDataChan "k" = none := by
  have h1 := (publish_to_stale_entry_removes_it "k" (SubscribeRemoteFileEvent "k" State.init).2
    0).1 { Return := .DOWNLOAD_OK } rfl rfl (by decide)
  have h2 := (publish_to_stale_entry_removes_it "k" (SubscribeRemoteSliceEvent "k" State.init).2
    0).2.1 { Return := .DOWNLOAD_OK } rfl rfl (by decide)
  have h3 := (publish_to_stale_entry_removes_it "k" (SubscribeDownloadSliceDone "k" State.init).2
    0).2.2.1 rfl rfl (by decide)
  have h4 := (publish_to_stale_entry_removes_it "k" (SubscribeDownloadFileInfo "k" State.init).2
    0).2.2.2.1 42 rfl rfl (by decide)
  have h5 := (publish_to_stale_entry_removes_it "k" fullUploadState 0).2.2.2.2 [6] rfl rfl
    (by decide)
  rw [h1, h2, h3, h4, h5]
  exact ⟨rfl, rfl, rfl, rfl, rfl⟩

/-- C8, failing input: `GetSignatureFromRemote "k"` times out in the initial state and leaves the
signature entry of `"k"` registered in `rpcDownloadReady`, on an unbuffered channel with no
receiver.  `SetDownloadSliceDone "k"` then neither returns nor removes the entry: it panics in
its type assertion, as it does on every signature entry. -/
theorem done_publish_on_stale_signature_entry_panics :
    GetSignatureFromRemote "k" [] State.init = .ok (none, staleSignatureState) ∧
    staleSignatureState.rpcDownloadReady "k" = some (.sig 0) ∧
    (staleSignatureState.bytesChans 0).recvq = 0 ∧
    (staleSignatureState.bytesChans 0).cap = 0 ∧
    (staleSignatureState.bytesChans 0).buf = [] ∧
    SetDownloadSliceDone "k" staleSignatureState = .error .panicTypeAssertion ∧
    ∀ (key : String) (s : State) (h : Handle), s.rpcDownloadReady key = some (.sig h) →
      SetDownloadSliceDone key s = .error .panicTypeAssertion :=
  ⟨rfl, rfl, rfl, rfl, rfl, rfl, fun key s h hreg => by simp [SetDownloadSliceDone, hreg]⟩

/-- C9, failing input: `SubscribeGetSignature "k"` in the initial state, then
`SetSignature "k" [1]` with no receiver parked.  The call returns, delivers nothing and returns
the state unchanged: the stale entry of `"k"` is still registered. -/
theorem set_signature_keeps_stale_entry :
    ((SubscribeGetSignature "k" State.init).2.bytesChans 0).recvq = 0 ∧
    SetSignature "k" [1] (SubscribeGetSignature "k" State.init).2
      = .ok (SubscribeGetSignature "k" State.init).2 ∧
    (SubscribeGetSignature "k" State.init).2.rpcDownloadReady "k" = some (.sig 0) :=
  ⟨rfl, rfl, rfl⟩

/-- C10: for every key with the closing flag set, every file name, offset and non-nil data,
`SaveRemoteFileData` returns the error "closing session" and a state that differs from the
given one only in that the closing flag of the key is deleted: nothing is published.  In that
state no call of `SaveRemoteFileData` for the key returns "closing session". -/
theorem closing_session_rejects_delivery (b64 : List Byte → String) (key fileName : String)
    (bytes : List Byte) (offset : Nat) (during : List Op) (s : State)
    (hclosing : s.rpcDownSessionClosing key = some true) :
    SaveRemoteFileData b64 key fileName (some bytes) offset during s
      = .ok (some "closing session",
          { s with rpcDownSessionClosing := Function.update s.rpcDownSessionClosing key none }) ∧
    ∀ fileName2 data2 offset2 during2 s2,
      SaveRemoteFileData b64 key fileName2 data2 offset2 during2
        { s with rpcDownSessionClosing := Function.update s.rpcDownSessionClosing key none }
        ≠ .ok (some "closing session", s2) := by
  constructor
  · simp [SaveRemoteFileData, hclosing]
  · intro fileName2 data2 offset2 during2 s2
    cases data2 with
    | none => simp [SaveRemoteFileData]
    | some d =>
      simp only [SaveRemoteFileData, Function.update_same, reduceCtorEq, if_false]
      unfold WaitDownloadSliceDone
      dsimp only
      split
      · simp
      · split <;> simp
      · simp

/-- C10, witness: `CloseDownloadSession "k"` in the initial state, then a delivery for `"k"`. -/
theorem closing_session_rejects_delivery_witness :
    (CloseDownloadSession "k" State.init).rpcDownSessionClosing "k" = some true ∧
    ∃ s1, SaveRemoteFileData (fun _ => "") "k" "f" (some [1, 2]) 0 []
        (CloseDownloadSession "k" State.init) = .ok (some "closing session", s1) ∧
      s1.rpcDownSessionClosing "k" = none ∧ s1.resultChans = State.init.resultChans ∧
      s1.rpcFileEventChan = State.init.rpcFileEventChan :=
  ⟨rfl, _, (closing_session_rejects_delivery (fun _ => "") "k" "f" [1, 2] 0 []
    (CloseDownloadSession "k" State.init) rfl).1, rfl, rfl, rfl⟩

/-! ## Claims about the delivery routes and the fetch -/

/-- C11, failing input: `SubscribeRemoteSliceEvent "s"`, a receiver parked on that channel,
`CloseDownloadSession "s"`, then `SaveRemoteFileSliceData "s" "f" "name" [1, 2] 7`.  The slice
key has a subscription, so the call goes through `SaveRemoteSliceData`, which never reads the
closing flag: the download-ok envelope is handed to the receiver, the call ends with the
timeout error and not with the closing error, and the flag is still set. -/
theorem slice_route_ignores_closing_flag :
    (parkOnResult 0 (CloseDownloadSession "s"
      (SubscribeRemoteSliceEvent "s" State.init).2)).rpcDownSessionClosing "s" = some true ∧
    ∃ s1, SaveRemoteFileSliceData (fun _ => "AQI=") "s" "f" "name" (some [1, 2]) 7 []
        (parkOnResult 0 (CloseDownloadSession "s" (SubscribeRemoteSliceEvent "s" State.init).2))
        = .ok (some "timeout waiting download slice", s1) ∧
      (s1.resultChans 0).handed
        = [{ Return := .DOWNLOAD_OK, OffsetStart := some 7, OffsetEnd := some 9,
             FileName := "name", FileData := "AQI=" }] ∧
      s1.rpcDownSessionClosing "s" = some true :=
  ⟨rfl, _, rfl, rfl, rfl⟩

/-- C12, failing input: a `nil` offset.  `GetRemoteFileData` returns `nil` and the state
unchanged, for every hash; `CacheRemoteFileData` has no such check and panics when it reads the
fields of the offset, for every file hash, instead of returning an error. -/
theorem nil_offset_get_returns_cache_panics :
    (∀ hash sched s, GetRemoteFileData hash none sched s = .ok (none, s)) ∧
    ∀ openErr writeErr fileHash sched s,
      CacheRemoteFileData openErr writeErr fileHash none sched s = .error .panicNilDereference :=
  ⟨fun _ _ _ => rfl, fun _ _ _ _ _ => rfl⟩

/-- C13, counterexample: hash `"h"` with the zero-length range from 5 to 5, while a receiver is
parked on the file-event channel of `"h"`.  The call is not rejected: with no further activity
it is still waiting; when the timer fires it returns `nil`, the upload-data-request envelope has
been handed to the receiver and a byte-chunk entry for `"h"` has been created.  In the state left
by a timed-out fetch and one late chunk the call takes the late chunk from the channel of `"h"`
and panics. -/
theorem zero_length_fetch_is_not_rejected :
    GetRemoteFileData "h" (some ⟨5, 5⟩) []
      (parkOnResult 0 (SubscribeRemoteFileEvent "h" State.init).2) = .error .blocked ∧
    (∃ s1, GetRemoteFileData "h" (some ⟨5, 5⟩) [[]]
        (parkOnResult 0 (SubscribeRemoteFileEvent "h" State.init).2) = .ok (none, s1) ∧
      (s1.resultChans 0).handed
        = [{ Return := .UPLOAD_DATA, OffsetStart := some 5, OffsetEnd := some 5 }] ∧
      s1.rpcUploadDataChan "h" = some 1) ∧
    GetRemoteFileData "h" (some ⟨5, 5⟩) [[]] staleUploadState = .error .panicSliceBounds :=
  ⟨rfl, ⟨_, rfl, rfl, rfl⟩, rfl⟩

/-- C18, failing input: the range from 0 to 2 and one chunk of three bytes sent with
`SendFileDataBack`.  After the copy `read` is 3 and the slice expression `data[read:]` on the
buffer of length 2 panics. -/
theorem oversized_chunk_panics :
    GetRemoteFileData "h" (some ⟨0, 2⟩) [[.sendFileDataBack "h" [1, 2, 3]]] State.init
      = .error .panicSliceBounds :=
  rfl

theorem SliceOffset.len_eq_zero (off : SliceOffset)
    (hz : off.SliceOffsetEnd = off.SliceOffsetStart) : off.len = 0 := by
  unfold SliceOffset.len
  rw [hz, Nat.add_sub_cancel_left, Nat.mod_self]

theorem uploadIdle_SetRemoteFileResult (hash key : String) (r : Result) (s : State)
    (hidle : uploadIdle s hash) : uploadIdle (SetRemoteFileResult key r s) hash := by
  obtain ⟨-, -, -, hb, -, -, hu, -⟩ := SetRemoteFileResult_frame key r s
  unfold uploadIdle
  rw [hu, hb]
  exact hidle

/-- A pass of the receive loop during which nothing happens times out and leaves the entry of
the hash registered. -/
theorem awaitBytes_idle_timeout (hash : String) (s : State) (hidle : uploadIdle s hash) :
    ∃ s1, awaitBytes (SubscribeGetRemoteFileData hash s).1 []
        (SubscribeGetRemoteFileData hash s).2 = .ok (none, s1) ∧
      s1.rpcUploadDataChan hash = some (SubscribeGetRemoteFileData hash s).1 ∧
      s1.resultChans = s.resultChans ∧ s1.rpcFileEventChan = s.rpcFileEventChan := by
  obtain ⟨hreg, hbuf, hq, hh⟩ := SubscribeGetRemoteFileData_idle hash s hidle
  have hres : (SubscribeGetRemoteFileData hash s).2.resultChans = s.resultChans ∧
      (SubscribeGetRemoteFileData hash s).2.rpcFileEventChan = s.rpcFileEventChan := by
    unfold SubscribeGetRemoteFileData
    split <;> exact ⟨rfl, rfl⟩
  refine ⟨_, awaitOn_timeout (fun t => t.bytesChans (SubscribeGetRemoteFileData hash s).1)
    (fun c t => { t with bytesChans := (Function.update t.bytesChans
      (SubscribeGetRemoteFileData hash s).1 c) }) [] _ _ hbuf rfl ?_, ?_, ?_, ?_⟩
  · simp [hh]
  · exact hreg
  · exact hres.1
  · exact hres.2

/-- C13, as amended: for every hash and every offset with `SliceOffsetEnd = SliceOffsetStart`,
`GetRemoteFileData` does not reject the request: it publishes the upload-data-request envelope
with `SetRemoteFileResult` and receives on the byte-chunk channel of the hash.
When the hash has no byte-chunk entry, or one whose channel holds no chunk, the call registers
an entry if there is none and waits: with no pass of the `select` described it is still waiting,
when the timer fires it returns `nil` and the entry stays registered, and when an empty chunk
arrives it returns an empty buffer and removes the entry.
When the channel registered for the hash already holds a chunk, the call takes that chunk at
once: a chunk with bytes (fewer than `2 ^ 63`, as in every Go slice) makes it panic with a slice
bound out of range, whether or not a chunk is sent meanwhile, and an empty chunk makes it return
an empty buffer and remove the entry.
The state satisfies the invariant that no receiver is parked on a byte-chunk channel. -/
theorem zero_length_fetch_publishes_and_waits (hash : String) (off : SliceOffset) (s : State)
    (hz : off.SliceOffsetEnd = off.SliceOffsetStart) (hquiet : s.uploadQuiet) :
    (uploadEmpty s hash →
      GetRemoteFileData hash (some off) [] s = .error .blocked ∧
      (∃ s1, GetRemoteFileData hash (some off) [[]] s = .ok (none, s1) ∧
        s1.rpcUploadDataChan hash ≠ none ∧
        s1.resultChans = (SetRemoteFileResult hash
          { Return := .UPLOAD_DATA, OffsetStart := some off.SliceOffsetStart,
            OffsetEnd := some off.SliceOffsetEnd } s).resultChans ∧
        s1.rpcFileEventChan = (SetRemoteFileResult hash
          { Return := .UPLOAD_DATA, OffsetStart := some off.SliceOffsetStart,
            OffsetEnd := some off.SliceOffsetEnd } s).rpcFileEventChan) ∧
      ∃ s1, GetRemoteFileData hash (some off) [[.sendFileDataBack hash []]] s
          = .ok (some [], s1) ∧
        s1.rpcUploadDataChan hash = none ∧
        s1.resultChans = (SetRemoteFileResult hash
          { Return := .UPLOAD_DATA, OffsetStart := some off.SliceOffsetStart,
            OffsetEnd := some off.SliceOffsetEnd } s).resultChans ∧
        s1.rpcFileEventChan = (SetRemoteFileResult hash
          { Return := .UPLOAD_DATA, OffsetStart := some off.SliceOffsetStart,
            OffsetEnd := some off.SliceOffsetEnd } s).rpcFileEventChan) ∧
    ∀ (h : Handle) (v : List Byte) (rest : List (List Byte)),
      s.rpcUploadDataChan hash = some h → (s.bytesChans h).buf = v :: rest →
      (v ≠ [] → v.length < 2 ^ 63 → ∀ sched,
        GetRemoteFileData hash (some off) ([] :: sched) s = .error .panicSliceBounds ∧
        ∀ c, GetRemoteFileData hash (some off) ([.sendFileDataBack hash c] :: sched) s
          = .error .panicSliceBounds) ∧
      (v = [] → ∀ sched, ∃ s1,
        GetRemoteFileData hash (some off) ([] :: sched) s = .ok (some [], s1) ∧
        s1.rpcUploadDataChan hash = none ∧
        s1.resultChans = (SetRemoteFileResult hash
          { Return := .UPLOAD_DATA, OffsetStart := some off.SliceOffsetStart,
            OffsetEnd := some off.SliceOffsetEnd } s).resultChans ∧
        s1.rpcFileEventChan = (SetRemoteFileResult hash
          { Return := .UPLOAD_DATA, OffsetStart := some off.SliceOffsetStart,
            OffsetEnd := some off.SliceOffsetEnd } s).rpcFileEventChan) := by
  have hlen := SliceOffset.len_eq_zero off hz
  have hint : off.len < 2 ^ 63 := by rw [hlen]; decide
  have hloop : ∀ sched, GetRemoteFileData hash (some off) sched s
      = GetRemoteFileData.loop hash 0 sched [] 0 0 (SetRemoteFileResult hash
          { Return := .UPLOAD_DATA, OffsetStart := some off.SliceOffsetStart,
            OffsetEnd := some off.SliceOffsetEnd } s) := by
    intro sched
    rw [GetRemoteFileData_eq_loop hash off sched s hint, hlen]
    rfl
  obtain ⟨-, -, -, hb, -, -, hu, -⟩ := SetRemoteFileResult_frame hash
    { Return := .UPLOAD_DATA, OffsetStart := some off.SliceOffsetStart,
      OffsetEnd := some off.SliceOffsetEnd } s
  constructor
  · intro hempty
    have hidle := uploadIdle_of_quiet_empty s hash hquiet hempty
    have hidle1 := uploadIdle_SetRemoteFileResult hash hash
      { Return := .UPLOAD_DATA, OffsetStart := some off.SliceOffsetStart,
        OffsetEnd := some off.SliceOffsetEnd } s hidle
    refine ⟨?_, ?_, ?_⟩
    · rw [hloop]; rfl
    · obtain ⟨s1, h1, h2, h3, h4⟩ := awaitBytes_idle_timeout hash _ hidle1
      refine ⟨s1, ?_, ?_, h3, h4⟩
      · rw [hloop]
        simp only [GetRemoteFileData.loop, h1]
      · rw [h2]; simp
    · obtain ⟨hreg, hbuf, hq, hh⟩ := SubscribeGetRemoteFileData_idle hash _ hidle1
      obtain ⟨s1, hw, h3, h4⟩ := awaitBytes_one_chunk_frame hash [] _ _ hreg hbuf hq hh
      obtain ⟨h5, h6⟩ := SubscribeGetRemoteFileData_frame hash (SetRemoteFileResult hash
        { Return := .UPLOAD_DATA, OffsetStart := some off.SliceOffsetStart,
          OffsetEnd := some off.SliceOffsetEnd } s)
      refine ⟨UnsubscribeGetRemoteFileData hash s1, ?_, ?_, h3.trans h5, h4.trans h6⟩
      · rw [hloop, GetRemoteFileData.loop]
        rw [hw]
        simp [goCopy]
      · simp [UnsubscribeGetRemoteFileData]
  · intro h v rest hreg hbuf
    have hreg1 := hreg
    have hbuf1 := hbuf
    rw [← hu] at hreg1
    rw [← hb] at hbuf1
    constructor
    · intro hv hvlen sched
      have hpos : 0 < v.length % u64 := by
        rw [Nat.mod_eq_of_lt (lt_trans hvlen (by decide))]
        exact List.length_pos.mpr hv
      constructor
      · rw [hloop, loop_zero_buffered hash _ h v rest hreg1 hbuf1 [] sched _ rfl, if_pos hpos]
      · intro c
        rw [hloop, loop_zero_buffered hash _ h v rest hreg1 hbuf1 [.sendFileDataBack hash c]
          sched _ rfl, if_pos hpos]
    · intro hv sched
      subst hv
      have hres := loop_zero_buffered hash _ h [] rest hreg1 hbuf1 [] sched _ rfl
      rw [if_neg (by simp)] at hres
      refine ⟨_, (hloop _).trans hres, ?_, ?_, ?_⟩
      · simp [UnsubscribeGetRemoteFileData]
      · rfl
      · rfl

/-- C13, witness: hash `"h"` and the range from 5 to 5, in the initial state and in the state
left by a timed-out fetch and one late chunk. -/
theorem zero_length_fetch_publishes_and_waits_witness :
    (GetRemoteFileData "h" (some ⟨5, 5⟩) [] State.init = .error .blocked ∧
      (∃ s1, GetRemoteFileData "h" (some ⟨5, 5⟩) [[]] State.init = .ok (none, s1) ∧
        s1.rpcUploadDataChan "h" ≠ none) ∧
      ∃ s1, GetRemoteFileData "h" (some ⟨5, 5⟩) [[.sendFileDataBack "h" []]] State.init
          = .ok (some [], s1) ∧
        s1.rpcUploadDataChan "h" = none ∧ s1.resultChans = State.init.resultChans) ∧
    staleUploadState.rpcUploadDataChan "h" = some 0 ∧
    (staleUploadState.bytesChans 0).buf = [[9]] ∧
    GetRemoteFileData "h" (some ⟨5, 5⟩) [[]] staleUploadState = .error .panicSliceBounds ∧
    GetRemoteFileData "h" (some ⟨5, 5⟩) [[.sendFileDataBack "h" []]] staleUploadState
      = .error .panicSliceBounds :=
  have h := (zero_length_fetch_publishes_and_waits "h" ⟨5, 5⟩ State.init rfl
    State.init_uploadQuiet).1 (by simp [uploadEmpty, State.init])
  have g := ((zero_length_fetch_publishes_and_waits "h" ⟨5, 5⟩ staleUploadState rfl
    staleUploadState_uploadQuiet).2 0 [9] [] rfl rfl).1 (by decide) (by decide) []
  ⟨⟨h.1, ⟨h.2.1.choose, h.2.1.choose_spec.1, h.2.1.choose_spec.2.1⟩,
      ⟨h.2.2.choose, h.2.2.choose_spec.1, h.2.2.choose_spec.2.1, h.2.2.choose_spec.2.2.1⟩⟩,
    rfl, rfl, g.1, g.2 []⟩

/-! ## The buffer of a byte-chunk channel -/

/-- Sending chunks that fit into the buffer queues them, in order, and changes nothing else. -/
theorem sendAll_buffers (key : String) (h : Handle) :
    ∀ (chunks : List (List Byte)) (s : State),
      s.rpcUploadDataChan key = some h → (s.bytesChans h).recvq = 0 →
      (s.bytesChans h).buf.length + chunks.length ≤ (s.bytesChans h).cap →
      sendAll key chunks s = { s with bytesChans := (Function.update s.bytesChans h
        { (s.bytesChans h) with buf := (s.bytesChans h).buf ++ chunks }) } := by
  intro chunks
  induction chunks with
  | nil =>
    intro s _ _ _
    simp [sendAll]
  | cons c rest ih =>
    intro s hreg hq hlen
    simp only [List.length_cons] at hlen
    have hsend : SendFileDataBack key c s = { s with bytesChans := (Function.update s.bytesChans h
        { (s.bytesChans h) with buf := (s.bytesChans h).buf ++ [c] }) } := by
      have hlt : (s.bytesChans h).buf.length < (s.bytesChans h).cap := by omega
      simp [SendFileDataBack, hreg, Chan.trySend, hq, hlt]
    have h2 := ih (SendFileDataBack key c s) (by rw [hsend]; exact hreg)
      (by rw [hsend]; simp [hq]) (by rw [hsend]; simp; omega)
    rw [sendAll, h2, hsend]
    simp

/-- Bounded receives on a channel with no parked receiver take the buffered chunks in order. -/
theorem receiveAll_buffered (h : Handle) :
    ∀ (chunks : List (List Byte)) (s : State), (s.bytesChans h).buf = chunks →
      ∃ s1, receiveAll h chunks.length s = .ok (chunks.map some, s1) ∧
        (s1.bytesChans h).buf = [] := by
  intro chunks
  induction chunks with
  | nil =>
    intro s hbuf
    exact ⟨s, rfl, hbuf⟩
  | cons c rest ih =>
    intro s hbuf
    have h1 : awaitBytes h [] s = .ok (some c,
        { s with bytesChans := (Function.update s.bytesChans h
          { (s.bytesChans h) with buf := rest }) }) := by
      simp [awaitBytes, awaitOn, hbuf, runOps]
    obtain ⟨s1, h2, h3⟩ := ih { s with bytesChans := (Function.update s.bytesChans h
          { (s.bytesChans h) with buf := rest }) } (by simp)
    refine ⟨s1, ?_, h3⟩
    simp only [List.length_cons, receiveAll, h1, h2, List.map_cons]

/-- C19: for every key without an entry, after `SubscribeGetRemoteFileData key` five
`SendFileDataBack key` calls in a row (nothing received in between) all put their chunk into the
buffer and keep the entry registered, and five receives on the handle then yield the chunks in
the order sent.  A sixth `SendFileDataBack key` delivers nothing (no channel changes) and removes
the entry, and the next `SubscribeGetRemoteFileData key` returns another handle, whose channel is
empty, while the first channel still holds the five chunks, which five receives on the first
handle still yield in the order sent. -/
theorem five_chunks_fill_the_buffer (key : String) (chunks : List (List Byte)) (c6 : List Byte)
    (s : State) (hfresh : s.rpcUploadDataChan key = none) (hfive : chunks.length = 5) :
    (SubscribeGetRemoteFileData key s).1 = s.nextChan ∧
    (sendAll key chunks (SubscribeGetRemoteFileData key s).2).rpcUploadDataChan key
      = some s.nextChan ∧
    ((sendAll key chunks (SubscribeGetRemoteFileData key s).2).bytesChans s.nextChan).buf
      = chunks ∧
    (∃ s1, receiveAll s.nextChan 5 (sendAll key chunks (SubscribeGetRemoteFileData key s).2)
      = .ok (chunks.map some, s1)) ∧
    (SendFileDataBack key c6
      (sendAll key chunks (SubscribeGetRemoteFileData key s).2)).rpcUploadDataChan key = none ∧
    (SendFileDataBack key c6
      (sendAll key chunks (SubscribeGetRemoteFileData key s).2)).bytesChans
      = (sendAll key chunks (SubscribeGetRemoteFileData key s).2).bytesChans ∧
    (SubscribeGetRemoteFileData key (SendFileDataBack key c6
      (sendAll key chunks (SubscribeGetRemoteFileData key s).2))).1 ≠ s.nextChan ∧
    ((SubscribeGetRemoteFileData key (SendFileDataBack key c6
      (sendAll key chunks (SubscribeGetRemoteFileData key s).2))).2.bytesChans
        (SubscribeGetRemoteFileData key (SendFileDataBack key c6
          (sendAll key chunks (SubscribeGetRemoteFileData key s).2))).1).buf = [] ∧
    ((SubscribeGetRemoteFileData key (SendFileDataBack key c6
      (sendAll key chunks (SubscribeGetRemoteFileData key s).2))).2.bytesChans s.nextChan).buf
      = chunks ∧
    ∃ s1, receiveAll s.nextChan 5 (SendFileDataBack key c6
      (sendAll key chunks (SubscribeGetRemoteFileData key s).2)) = .ok (chunks.map some, s1) := by
  have hsub : SubscribeGetRemoteFileData key s = (s.nextChan,
      { s with
        nextChan := s.nextChan + 1
        bytesChans := Function.update s.bytesChans s.nextChan
          (Chan.make (List Byte) NUMBER_OF_UPLOAD_CHAN_BUFFER)
        rpcUploadDataChan := Function.update s.rpcUploadDataChan key (some s.nextChan) }) := by
    simp [SubscribeGetRemoteFileData, hfresh]
  have hall := sendAll_buffers key s.nextChan chunks (SubscribeGetRemoteFileData key s).2
    (by simp [hsub]) (by simp [hsub, Chan.make])
    (by simp [hsub, Chan.make, NUMBER_OF_UPLOAD_CHAN_BUFFER, hfive])
  have hbuf : ((sendAll key chunks (SubscribeGetRemoteFileData key s).2).bytesChans
      s.nextChan).buf = chunks := by
    rw [hall]; simp [hsub, Chan.make]
  have hreg : (sendAll key chunks (SubscribeGetRemoteFileData key s).2).rpcUploadDataChan key
      = some s.nextChan := by
    rw [hall]; simp [hsub]
  have hsix : SendFileDataBack key c6 (sendAll key chunks (SubscribeGetRemoteFileData key s).2)
      = UnsubscribeGetRemoteFileData key
        (sendAll key chunks (SubscribeGetRemoteFileData key s).2) := by
    have hfull := trySend_none_of_full
      ((sendAll key chunks (SubscribeGetRemoteFileData key s).2).bytesChans s.nextChan) c6
      (by rw [hall]; simp [hsub, Chan.make])
      (by rw [hall]; simp [hsub, Chan.make, NUMBER_OF_UPLOAD_CHAN_BUFFER, hfive])
    simp [SendFileDataBack, hreg, hfull]
  have hnext : (sendAll key chunks (SubscribeGetRemoteFileData key s).2).nextChan
      = s.nextChan + 1 := by
    rw [hall]; simp [hsub]
  have hfst : (SubscribeGetRemoteFileData key s).1 = s.nextChan := by rw [hsub]
  clear hall hsub
  generalize sendAll key chunks (SubscribeGetRemoteFileData key s).2 = t at *
  have hsub2 : SubscribeGetRemoteFileData key (UnsubscribeGetRemoteFileData key t)
      = (t.nextChan,
        { t with
          nextChan := t.nextChan + 1
          bytesChans := Function.update t.bytesChans t.nextChan
            (Chan.make (List Byte) NUMBER_OF_UPLOAD_CHAN_BUFFER)
          rpcUploadDataChan := Function.update t.rpcUploadDataChan key (some t.nextChan) }) := by
    simp [SubscribeGetRemoteFileData, UnsubscribeGetRemoteFileData]
  have hne : s.nextChan ≠ t.nextChan := by
    rw [hnext]; exact Nat.ne_of_lt (Nat.lt_succ_self _)
  refine ⟨hfst, hreg, hbuf, ?_, ?_, ?_, ?_, ?_, ?_, ?_⟩
  · obtain ⟨s1, h1, -⟩ := receiveAll_buffered s.nextChan chunks _ hbuf
    rw [hfive] at h1
    exact ⟨s1, h1⟩
  · rw [hsix]; simp [UnsubscribeGetRemoteFileData]
  · rw [hsix]; rfl
  · rw [hsix, hsub2]
    exact Ne.symm hne
  · rw [hsix, hsub2]
    simp [Chan.make]
  · rw [hsix, hsub2]
    simp [Function.update_apply, hne, hbuf]
  · obtain ⟨s1, h1, -⟩ := receiveAll_buffered s.nextChan chunks
      (UnsubscribeGetRemoteFileData key t) hbuf
    rw [hfive] at h1
    rw [hsix]
    exact ⟨s1, h1⟩

/-- C19, witness: key `"k"` in the initial state with the chunks `[1]` to `[5]`, then `[6]`. -/
theorem five_chunks_fill_the_buffer_witness :
    State.init.rpcUploadDataChan "k" = none ∧
    (sendAll "k" [[1], [2], [3], [4], [5]]
      (SubscribeGetRemoteFileData "k" State.init).2).rpcUploadDataChan "k" = some 0 ∧
    (∃ s1, receiveAll 0 5 (sendAll "k" [[1], [2], [3], [4], [5]]
      (SubscribeGetRemoteFileData "k" State.init).2)
      = .ok ([some [1], some [2], some [3], some [4], some [5]], s1)) ∧
    (SendFileDataBack "k" [6] (sendAll "k" [[1], [2], [3], [4], [5]]
      (SubscribeGetRemoteFileData "k" State.init).2)).rpcUploadDataChan "k" = none :=
  have h := five_chunks_fill_the_buffer "k" [[1], [2], [3], [4], [5]] [6] State.init rfl rfl
  ⟨rfl, h.2.1, h.2.2.2.1, h.2.2.2.2.1⟩

/-! ## Claims about the result caches -/

/-- C14: for every key and every non-nil result `r`, after `SetFileListResult key r` the first
`GetFileListResult key` returns `(r, true)` and the next one `(nil, false)`; the same holds for
the share, clear-expired-share-links and ozone caches; a `Set` with a `nil` result returns the
caches unchanged. -/
theorem cached_result_is_polled_once {FL FS CE OZ : Type} (key : String)
    (c : Caches FL FS CE OZ) :
    (∀ r, (GetFileListResult key (SetFileListResult key (some r) c)).1 = (some r, true) ∧
      (GetFileListResult key
        (GetFileListResult key (SetFileListResult key (some r) c)).2).1 = (none, false)) ∧
    (∀ r, (GetFileShareResult key (SetFileShareResult key (some r) c)).1 = (some r, true) ∧
      (GetFileShareResult key
        (GetFileShareResult key (SetFileShareResult key (some r) c)).2).1 = (none, false)) ∧
    (∀ r, (GetClearExpiredShareLinksResult key
        (SetClearExpiredShareLinksResult key (some r) c)).1 = (some r, true) ∧
      (GetClearExpiredShareLinksResult key (GetClearExpiredShareLinksResult key
        (SetClearExpiredShareLinksResult key (some r) c)).2).1 = (none, false)) ∧
    (∀ r, (GetQueryOzoneResult key (SetQueryOzoneResult key (some r) c)).1 = (some r, true) ∧
      (GetQueryOzoneResult key
        (GetQueryOzoneResult key (SetQueryOzoneResult key (some r) c)).2).1 = (none, false)) ∧
    SetFileListResult key none c = c ∧ SetFileShareResult key none c = c ∧
    SetClearExpiredShareLinksResult key none c = c ∧ SetQueryOzoneResult key none c = c := by
  refine ⟨fun r => ?_, fun r => ?_, fun r => ?_, fun r => ?_, rfl, rfl, rfl, rfl⟩
  · simp [GetFileListResult, SetFileListResult]
  · simp [GetFileShareResult, SetFileShareResult]
  · simp [GetClearExpiredShareLinksResult, SetClearExpiredShareLinksResult]
  · simp [GetQueryOzoneResult, SetQueryOzoneResult]

/-! ## Claims about the latency probes -/

/-- C15, counterexample: a node connected to `"sp1"` probes `"sp2"` and the connection attempt
fails.  No message is sent and nothing is buffered, but the status of `"sp2"` is what it was,
unknown: it is not marked failed. -/
theorem failed_probe_marks_nothing :
    (checkSingleSpLatency (fun _ _ => none) "pp" 0 "sp2" false connectedToSp1).status "sp2"
      = .unknown ∧
    (checkSingleSpLatency (fun _ _ => none) "pp" 0 "sp2" false connectedToSp1).status "sp2"
      ≠ .failed ∧
    (checkSingleSpLatency (fun _ _ => none) "pp" 0 "sp2" false connectedToSp1).sent = [] ∧
    GetBufferedSpConns
      (checkSingleSpLatency (fun _ _ => none) "pp" 0 "sp2" false connectedToSp1) = [] := by
  decide

/-- C15, as amended: for every address that is not the name of the active supervisor
connection and to which the connection attempt fails, `checkSingleSpLatency` returns the state
unchanged: no latency-check message is sent, the buffered connections are as before and no peer
status is written.  For the address of the active supervisor the request is sent on the
supervisor connection itself and the buffered connections are unchanged.  With no supervisor
connection nothing happens. -/
theorem failed_probe_changes_nothing (newClient : String → Bool → Option ClientConn)
    (p2pAddress : String) (now : Int) (server : String) (heartbeat : Bool) (st : PeersState) :
    (∀ active, st.SPConn = some active → active.name ≠ server →
      newClient server heartbeat = none →
      checkSingleSpLatency newClient p2pAddress now server heartbeat st = st) ∧
    (∀ active, st.SPConn = some active → active.name = server →
      GetBufferedSpConns (checkSingleSpLatency newClient p2pAddress now server heartbeat st)
        = GetBufferedSpConns st ∧
      (checkSingleSpLatency newClient p2pAddress now server heartbeat st).sent
        = st.sent ++ [(active,
            { P2PAddressPp := p2pAddress, NetworkAddressSp := server, PingTime := now })]) ∧
    (st.SPConn = none →
      checkSingleSpLatency newClient p2pAddress now server heartbeat st = st) := by
  refine ⟨fun active hsp hne hfail => ?_, fun active hsp heq => ?_, fun hsp => ?_⟩
  · simp [checkSingleSpLatency, hsp, hne, hfail]
  · simp [checkSingleSpLatency, hsp, heq, GetBufferedSpConns]
  · simp [checkSingleSpLatency, hsp]

/-- C15, witness: a node connected to `"sp1"` probes `"sp2"`, to which no connection can be
opened, and then `"sp1"` itself. -/
theorem failed_probe_changes_nothing_witness :
    connectedToSp1.SPConn = some { id := 0, name := "sp1" } ∧
    checkSingleSpLatency (fun _ _ => none) "pp" 0 "sp2" false connectedToSp1 = connectedToSp1 ∧
    GetBufferedSpConns (checkSingleSpLatency (fun _ _ => none) "pp" 0 "sp1" false connectedToSp1)
      = GetBufferedSpConns connectedToSp1 :=
  have h := failed_probe_changes_nothing (fun _ _ => none) "pp" 0 "sp2" false connectedToSp1
  have h1 := failed_probe_changes_nothing (fun _ _ => none) "pp" 0 "sp1" false connectedToSp1
  ⟨rfl, h.1 _ rfl (by decide) rfl, (h1.2.1 _ rfl rfl).1⟩

/-! ## Claims about the mutexes -/

theorem heldAtWaits_replicate (held : List Mutex) (n : Nat) (rest : List LockStep) :
    heldAtWaits held (List.replicate n .wait ++ rest)
      = List.replicate n held ++ heldAtWaits held rest := by
  induction n with
  | zero => rfl
  | succ n ih => simp [List.replicate_succ, heldAtWaits, ih]

/-- C16, counterexample: a call of `GetRemoteFileData` that passes once through its `select`
holds `upSliceMutex` at that wait, and `SaveRemoteFileData` holds `wmutex` at its wait. -/
theorem fetch_waits_holding_upSliceMutex :
    heldAtWaits [] (GetRemoteFileData.steps 1) = [[.upSliceMutex]] ∧
    heldAtWaits [] SaveRemoteFileData.steps = [[.wmutex]] ∧
    ¬ ∀ held ∈ heldAtWaits [] (GetRemoteFileData.steps 1), held = [] := by
  decide

/-- C16, as amended: `GetRemoteFileInfo` blocks in its bounded-timeout receive holding no
package mutex, and none of `fileEventMutex`, `sliceEventMutex` and `reFileMutex` is held at a
wait of any of the four functions; but `GetRemoteFileData` and `CacheRemoteFileData` hold
`upSliceMutex`, and `SaveRemoteFileData` holds `wmutex`, at every one of their waits. -/
theorem only_coarse_mutexes_held_at_waits (passes : Nat) :
    heldAtWaits [] (GetRemoteFileData.steps passes) = List.replicate passes [.upSliceMutex] ∧
    heldAtWaits [] (CacheRemoteFileData.steps passes) = List.replicate passes [.upSliceMutex] ∧
    heldAtWaits [] SaveRemoteFileData.steps = [[.wmutex]] ∧
    heldAtWaits [] GetRemoteFileInfo.steps = [[]] ∧
    ∀ held ∈ heldAtWaits [] (GetRemoteFileData.steps passes)
        ++ heldAtWaits [] (CacheRemoteFileData.steps passes)
        ++ heldAtWaits [] SaveRemoteFileData.steps ++ heldAtWaits [] GetRemoteFileInfo.steps,
      Mutex.fileEventMutex ∉ held ∧ Mutex.sliceEventMutex ∉ held ∧ Mutex.reFileMutex ∉ held := by
  have h1 : heldAtWaits [] (GetRemoteFileData.steps passes)
      = List.replicate passes [.upSliceMutex] := by
    simp [GetRemoteFileData.steps, SetRemoteFileResult.steps, heldAtWaits,
      heldAtWaits_replicate]
  have h2 : heldAtWaits [] (CacheRemoteFileData.steps passes)
      = List.replicate passes [.upSliceMutex] := by
    simp [CacheRemoteFileData.steps, SetRemoteFileResult.steps, heldAtWaits,
      heldAtWaits_replicate]
  have h3 : heldAtWaits [] SaveRemoteFileData.steps = [[.wmutex]] := by decide
  have h4 : heldAtWaits [] GetRemoteFileInfo.steps = [[]] := by decide
  refine ⟨h1, h2, h3, h4, ?_⟩
  intro held hmem
  rw [h1, h2, h3, h4] at hmem
  simp only [List.mem_append, List.mem_replicate, List.mem_singleton] at hmem
  rcases hmem with ((⟨-, rfl⟩ | ⟨-, rfl⟩) | rfl) | rfl <;> decide

/-! ## Claims about the path helpers -/

/-- C17, failing input: a download folder that lists an entry named `a` before `movie.csv`.
The slice expression `fileName[len(fileName)-4:]` panics on the one-byte name; so it does on
every listing whose first entry name has fewer than four bytes. -/
theorem short_entry_name_panics :
    GetDownloadFileName (.ok [goStr "a", goStr "movie.csv"]) = .error .panicSliceBounds ∧
    ∀ (fileName : GoString) (files : List GoString), fileName.length < 4 →
      GetDownloadFileName (.ok (fileName :: files)) = .error .panicSliceBounds := by
  refine ⟨rfl, fun fileName files hlen => ?_⟩
  have hneg : ¬ (0 ≤ (fileName.length : Int) - 4 ∧
      (fileName.length : Int) - 4 ≤ fileName.length) := by omega
  simp only [GetDownloadFileName, GetDownloadFileName.loop, sliceFrom, hneg, if_false]

/-- C20, failing input: the single parameter that consists of one double quote, on linux and
on windows.  After the leading quote is stripped the string is empty and the slice expression
`newStr[len(newStr)-1:]` panics. -/
theorem lone_quote_parameter_panics :
    EscapePath "linux" [goStr "\""] = .error .panicSliceBounds ∧
    EscapePath "darwin" [goStr "\""] = .error .panicSliceBounds ∧
    EscapePath "windows" [goStr "\""] = .error .panicSliceBounds :=
  ⟨rfl, rfl, rfl⟩

/-! ## Slice paths -/

theorem toRunes_cap (spare : Nat → Nat) (hash : String) :
    (toRunes spare hash).cap = hash.data.length + spare hash.data.length := rfl

theorem toRunes_elems (spare : Nat → Nat) (hash : String) :
    (toRunes spare hash).elems = hash.data := rfl

theorem RuneSlice.slice_error (a : RuneSlice) (lo hi : Nat) (e : Halt)
    (h : a.slice lo hi = .error e) : e = .panicSliceBounds := by
  unfold RuneSlice.slice at h
  split at h
  · cases h
  · cases h; rfl

/-- A hash of at least ten characters: `getSlicePath` slices within the length, whatever the
capacity, and returns. -/
theorem getSlicePath_returns_of_ten_chars (spare : Nat → Nat) (storagePath : String)
    (join : List String → String) (stat : String → StatOutcome)
    (mkdirAll : String → Option String) (hash : String) (h : 10 ≤ hash.data.length) :
    (toRunes spare hash).slice 0 8 = .ok (hash.data.take 8) ∧
    (toRunes spare hash).slice 8 10 = .ok ((hash.data.take 10).drop 8) ∧
    ∃ r, getSlicePath spare storagePath join stat mkdirAll hash = .ok r := by
  have h1 : (toRunes spare hash).slice 0 8 = .ok (hash.data.take 8) := by
    have hc : (0 ≤ 8 ∧ 8 ≤ (toRunes spare hash).cap) := by
      rw [toRunes_cap]; omega
    rw [RuneSlice.slice, if_pos hc, toRunes_elems, List.take_append_of_le_length (by omega)]
    rfl
  have h2 : (toRunes spare hash).slice 8 10 = .ok ((hash.data.take 10).drop 8) := by
    have hc : (8 ≤ 10 ∧ 10 ≤ (toRunes spare hash).cap) := by
      rw [toRunes_cap]; omega
    rw [RuneSlice.slice, if_pos hc, toRunes_elems, List.take_append_of_le_length (by omega)]
  refine ⟨h1, h2, ?_⟩
  unfold getSlicePath
  rw [h1, h2]
  dsimp only
  split
  · exact ⟨_, rfl⟩
  · split
    · exact ⟨_, rfl⟩
    · split
      · split
        · exact ⟨_, rfl⟩
        · exact ⟨_, rfl⟩
      · exact ⟨_, rfl⟩

/-- C21, failing input: the hash of five two-byte characters has ten bytes, so it passes the
length check of `getSlicePath`, and five characters.  Unless the converted slice has five spare
elements of capacity, `getSlicePath` panics on it with a slice bound out of range; and when it
has them, the two slice expressions reach behind the hash: the first component ends in three
zero runes and the second is two zero runes. -/
theorem multibyte_hash_passes_length_check (spare : Nat → Nat) (storagePath : String)
    (join : List String → String) (stat : String → StatOutcome)
    (mkdirAll : String → Option String) :
    "ééééé".utf8ByteSize = 10 ∧ "ééééé".data.length = 5 ∧
    (5 ≤ spare 5 ∨
      getSlicePath spare storagePath join stat mkdirAll "ééééé" = .error .panicSliceBounds) ∧
    (spare 5 < 5 ∨
      ((toRunes spare "ééééé").slice 0 8 = .ok "ééééé\x00\x00\x00".data ∧
       (toRunes spare "ééééé").slice 8 10 = .ok "\x00\x00".data)) := by
  have hlen : "ééééé".data.length = 5 := by decide
  have hcap : (toRunes spare "ééééé").cap = 5 + spare 5 := by
    rw [toRunes_cap, hlen]
  refine ⟨by decide, hlen, ?_, ?_⟩
  · by_cases h : 5 ≤ spare 5
    · exact Or.inl h
    · right
      have hb : ¬ ("ééééé".utf8ByteSize < 10) := by decide
      have h2 : (toRunes spare "ééééé").slice 8 10 = .error .panicSliceBounds := by
        have hc : ¬ (8 ≤ 10 ∧ 10 ≤ (toRunes spare "ééééé").cap) := by
          rw [hcap]; omega
        rw [RuneSlice.slice, if_neg hc]
      unfold getSlicePath
      rw [if_neg hb, h2]
      split
      · rename_i e he
        rw [RuneSlice.slice_error _ _ _ e he]
      · rfl
  · by_cases h : spare 5 < 5
    · exact Or.inl h
    · right
      obtain ⟨k, hk⟩ : ∃ k, spare 5 = 5 + k := ⟨spare 5 - 5, by omega⟩
      have hc1 : (0 ≤ 8 ∧ 8 ≤ (toRunes spare "ééééé").cap) := by
        rw [hcap]; omega
      have hc2 : (8 ≤ 10 ∧ 10 ≤ (toRunes spare "ééééé").cap) := by
        rw [hcap]; omega
      have hrep : List.replicate ((toRunes spare "ééééé").cap - (toRunes spare "ééééé").elems.length)
          (Char.ofNat 0) = List.replicate 5 (Char.ofNat 0) ++ List.replicate k (Char.ofNat 0) := by
        rw [hcap, toRunes_elems, hlen, hk, ← List.replicate_add]
        congr 1; omega
      constructor
      · rw [RuneSlice.slice, if_pos hc1, hrep, toRunes_elems, ← List.append_assoc,
          List.take_append_of_le_length (by decide)]
        rfl
      · rw [RuneSlice.slice, if_pos hc2, hrep, toRunes_elems, ← List.append_assoc,
          List.take_append_of_le_length (by decide)]
        rfl

end Sds
